import Mathlib

/-!
Verification of the StreamDeck driver (final variant,
`streamdeck-dist V1/source/streamdeck_driver.py`).

The Python functions are shallowly embedded as executable Lean
definitions operating on `String` / `List Char`, with external effects
(subprocess results, dialogs, the database, the authoritative
generation map read by monitor threads) supplied as explicit inputs.
-/

/-- Python `str.strip()` whitespace predicate (space, tab, newline, CR). -/
def pyWs (c : Char) : Bool :=
  c == ' ' || c == '\t' || c == '\n' || c == '\r'

/-- Python `str.strip()` on a character list. -/
def pyStrip (s : List Char) : List Char :=
  ((s.dropWhile pyWs).reverse.dropWhile pyWs).reverse

/-- Python `str.upper()` (ASCII, which covers every flag string). -/
def pyUpper (s : List Char) : List Char :=
  s.map Char.toUpper

/-- Python `str.lower()` (ASCII). -/
def pyLower (s : List Char) : List Char :=
  s.map Char.toLower

/-- Does `pat` occur as a contiguous subsequence of `s`?
(Python's `pat in s` on strings.) -/
def containsSeq (pat : List Char) : List Char → Bool
  | [] => pat.isEmpty
  | c :: rest => pat.isPrefixOf (c :: rest) || containsSeq pat rest

/-- `BASE_COLORS` table from the driver. -/
def BASE_COLORS : List (Char × String) :=
  [('R', "#FF0000"), ('G', "#00FF00"), ('B', "#0066CC"),
   ('O', "#FF9900"), ('Y', "#FFFF00"), ('P', "#800080"),
   ('S', "#C0C0C0"), ('F', "#FF00FF"), ('W', "#FFFFFF"),
   ('L', "#FDF6E3")]

/-- `non_color_flags` set from `parse_flags`. -/
def non_color_flags : List Char :=
  ['N', 'T', '@', 'D', '#', 'V', '~', 'K', 'M', '?', '*', '&', '>']

def DEFAULT_FONT_SIZE : Nat := 13

/-- First maximal run of digits in the string (Python `re.search(r"(\d+)", f)`),
returned as its digit characters. -/
def firstDigitRun : List Char → Option (List Char)
  | [] => none
  | c :: rest =>
    if c.isDigit then some (c :: rest.takeWhile Char.isDigit)
    else firstDigitRun rest

/-- Value of a digit string (Python `int` on a digit run). -/
def digitsVal (ds : List Char) : Nat :=
  ds.foldl (fun acc c => 10 * acc + (c.toNat - 48)) 0

def hexDigitVal (c : Char) : Nat :=
  if c.isDigit then c.toNat - 48
  else if 'A' ≤ c ∧ c ≤ 'F' then c.toNat - 55
  else if 'a' ≤ c ∧ c ≤ 'f' then c.toNat - 87
  else 0

def hexPair (a b : Char) : Nat := 16 * hexDigitVal a + hexDigitVal b

/-- One uppercase hex digit. -/
def toHexDigit (n : Nat) : Char :=
  if n < 10 then Char.ofNat (48 + n) else Char.ofNat (55 + (n % 16))

/-- Two-digit uppercase hex rendering of a byte (Python `f"{n:02X}"`). -/
def byteHex (n : Nat) : List Char :=
  [toHexDigit (n / 16 % 16), toHexDigit (n % 16)]

/-- The `'D'` dim variant: halve each RGB channel of a `#RRGGBB` color
(`parse_flags`, the `try`/`except: pass` body; malformed input is
returned unchanged, as the `except` does). -/
def halveHexColor (col : String) : String :=
  match col.data with
  | ['#', r1, r2, g1, g2, b1, b2] =>
    ⟨'#' :: (byteHex (hexPair r1 r2 / 2) ++ byteHex (hexPair g1 g2 / 2) ++
      byteHex (hexPair b1 b2 / 2))⟩
  | _ => col

/-- Flag descriptor: the 12-tuple returned by `parse_flags`, as a record. -/
structure FlagDesc where
  new_window : Bool
  is_device : Bool
  sticky : Bool
  color : String
  font_size : Nat
  force_local : Bool
  mobile_ssh : Bool
  osa_monitor : Bool
  record : Bool
  background_exec : Bool
  confirm : Bool
  monitor_process : Bool
deriving Repr, DecidableEq

/-- `parse_flags` from the final driver. -/
def parse_flags (flags_str : String) : FlagDesc :=
  let f := pyUpper (pyStrip flags_str.data)
  if f = [] ∨ f = "MISSING VALUE".data then
    { new_window := false, is_device := false, sticky := false,
      color := "#000000", font_size := DEFAULT_FONT_SIZE,
      force_local := false, mobile_ssh := false, osa_monitor := false,
      record := false, background_exec := false, confirm := false,
      monitor_process := false }
  else
    let record_flag := f.contains '*'
    let base_color_char :=
      f.find? (fun c => (BASE_COLORS.lookup c).isSome && !(non_color_flags.contains c))
    let col := match base_color_char with
      | some c => ((BASE_COLORS.lookup c).getD "#000000")
      | none => "#000000"
    { new_window := f.contains 'N', is_device := f.contains '@',
      sticky := f.contains 'T',
      color := if f.contains 'D' && base_color_char.isSome then halveHexColor col else col,
      font_size := match firstDigitRun f with
        | some ds => digitsVal ds
        | none => DEFAULT_FONT_SIZE,
      force_local := f.contains 'K',
      mobile_ssh := f.contains 'M' || record_flag,
      osa_monitor := f.contains '?', record := record_flag,
      background_exec := f.contains '&', confirm := f.contains '>',
      monitor_process := f.contains '~' }

/-- C8 counterexample: the flag string `"@"` marks a device button, yet the
final driver's `parse_flags` leaves `sticky` false ('@' does not imply
sticky; only 'T' does). -/
theorem parse_flags_at_not_sticky :
    (parse_flags "@").is_device = true ∧ (parse_flags "@").sticky = false := by
  constructor <;> rfl

/-- C8 (amended): for every flag string, the `sticky` field of the parsed
descriptor is exactly "the stripped, uppercased flag string contains 'T'";
the '@' device flag has no effect on `sticky` in the final driver. -/
theorem parse_flags_sticky_iff (s : String) :
    (parse_flags s).sticky = (pyUpper (pyStrip s.data)).contains 'T' := by
  unfold parse_flags
  by_cases h : pyUpper (pyStrip s.data) = [] ∨ pyUpper (pyStrip s.data) = "MISSING VALUE".data
  · rw [if_pos h]
    rcases h with h | h <;> rw [h] <;> rfl
  · rw [if_neg h]

/-! ## Variable resolver (`resolve_command_string`) -/

/-- Case-insensitive literal match (used for the `re.IGNORECASE` TAKE
pattern): consume `pat` from the front of `s`, comparing uppercased
characters, returning the remainder. -/
def matchCI : List Char → List Char → Option (List Char)
  | [], s => some s
  | _ :: _, [] => none
  | p :: ps, c :: cs => if c.toUpper = p then matchCI ps cs else none

theorem matchCI_length {pat s r : List Char} (h : matchCI pat s = some r) :
    r.length ≤ s.length := by
  induction pat generalizing s with
  | nil => simp [matchCI] at h; simp [h]
  | cons p ps ih =>
    cases s with
    | nil => simp [matchCI] at h
    | cons c cs =>
      simp only [matchCI] at h
      split at h
      · exact le_trans (ih h) (Nat.le_succ _)
      · exact absurd h (by simp)


/-- Expect the literal closing `}}` and return the remainder. -/
def expectClose : List Char → Option (List Char)
  | '}' :: '}' :: rem => some rem
  | _ => none

theorem expectClose_some {l rem : List Char} (h : expectClose l = some rem) :
    l = '}' :: '}' :: rem := by
  unfold expectClose at h
  split at h
  · cases h; rfl
  · exact absurd h (by simp)

/-- The `(:[^}]*)?\}\}` tail of both placeholder regexes: after the
variable name, an optional `:`-default (greedy, no `}`), then `}}`. -/
def parsePlaceholderTail : List Char → Option (List Char)
  | ':' :: r2 => expectClose (r2.dropWhile (fun c => !(c == '}')))
  | r => expectClose r

theorem length_dropWhile_le {α : Type} (p : α → Bool) (l : List α) :
    (l.dropWhile p).length ≤ l.length := by
  induction l with
  | nil => simp
  | cons a l ih =>
    rw [List.dropWhile_cons]
    split
    · exact le_trans ih (Nat.le_succ _)
    · exact le_refl _

theorem parsePlaceholderTail_length {r rem : List Char}
    (h : parsePlaceholderTail r = some rem) : rem.length < r.length := by
  unfold parsePlaceholderTail at h
  split at h
  · next r2 =>
    have hd : (r2.dropWhile (fun c => !(c == '}'))).length ≤ r2.length :=
      length_dropWhile_le _ _
    have := expectClose_some h
    rw [this] at hd
    simp only [List.length_cons] at hd ⊢
    omega
  · have := expectClose_some h
    subst this
    simp only [List.length_cons]
    omega

/-- Attempt to match the case-insensitive `\{\{TAKE(:[^}]*)?\}\}` pattern
at the start of `s`, returning the remainder after the match. -/
def parseTakeAt (s : List Char) : Option (List Char) :=
  if ['{', '{'].isPrefixOf s then
    match matchCI ['T', 'A', 'K', 'E'] (s.drop 2) with
    | some r0 => parsePlaceholderTail r0
    | none => none
  else none

theorem parseTakeAt_length {s rem : List Char} (h : parseTakeAt s = some rem) :
    rem.length < s.length := by
  unfold parseTakeAt at h
  split at h
  · next hpre =>
    split at h
    · next r0 hm =>
      have h1 : r0.length ≤ (s.drop 2).length := matchCI_length hm
      have h2 := parsePlaceholderTail_length h
      have h3 : 2 ≤ s.length := by
        match s, hpre with
        | c1 :: c2 :: s', _ => simp
        | [], hpre => simp [List.isPrefixOf] at hpre
        | [c], hpre => simp [List.isPrefixOf] at hpre
      simp only [List.length_drop] at h1
      omega
    · exact absurd h (by simp)
  · exact absurd h (by simp)

theorem parseTakeAt_startsBrace {s rem : List Char} (h : parseTakeAt s = some rem) :
    ['{', '{'].isPrefixOf s = true := by
  unfold parseTakeAt at h
  split at h
  · next hpre => exact hpre
  · exact absurd h (by simp)

/-- `re.sub(r'\{\{TAKE(:[^}]*)?\}\}', rep, ·, flags=re.IGNORECASE)`:
left-to-right, non-overlapping, replacement not rescanned.  Structured
with an explicit recursion bound (`s.length` suffices, see
`subTakeAllF_congr`) so that it reduces definitionally. -/
def subTakeAllF (rep : List Char) : Nat → List Char → List Char
  | 0, s => s
  | fuel + 1, s =>
    match s with
    | [] => []
    | c :: rest =>
      match parseTakeAt (c :: rest) with
      | some rem => rep ++ subTakeAllF rep fuel rem
      | none => c :: subTakeAllF rep fuel rest

def subTakeAll (rep : List Char) (s : List Char) : List Char :=
  subTakeAllF rep s.length s

theorem subTakeAllF_congr (rep : List Char) :
    ∀ (f1 : Nat) (s : List Char) (f2 : Nat), s.length ≤ f1 → s.length ≤ f2 →
      subTakeAllF rep f1 s = subTakeAllF rep f2 s := by
  intro f1
  induction f1 with
  | zero =>
    intro s f2 h1 _
    have : s = [] := List.length_eq_zero.mp (Nat.le_zero.mp h1)
    subst this
    cases f2 <;> rfl
  | succ f ih =>
    intro s f2 h1 h2
    cases s with
    | nil => cases f2 <;> rfl
    | cons c rest =>
      cases f2 with
      | zero => simp at h2
      | succ f2' =>
        simp only [subTakeAllF]
        cases hp : parseTakeAt (c :: rest) with
        | some rem =>
          dsimp only
          have hl := parseTakeAt_length hp
          simp only [List.length_cons] at h1 h2 hl
          rw [ih rem f2' (by omega) (by omega)]
        | none =>
          dsimp only
          simp only [List.length_cons] at h1 h2
          rw [ih rest f2' (by omega) (by omega)]

/-- Attempt to match `\{\{` ++ (escaped literal `name`) ++ `(:[^}]*)?\}\}`
at the start of `s` (the per-variable pattern of the resolver's second
pass), returning the remainder. -/
def parseVarAt (name : List Char) (s : List Char) : Option (List Char) :=
  if ('{' :: '{' :: name).isPrefixOf s then
    parsePlaceholderTail (s.drop (name.length + 2))
  else none

theorem parseVarAt_length {name s rem : List Char}
    (h : parseVarAt name s = some rem) : rem.length < s.length := by
  unfold parseVarAt at h
  split at h
  · have h2 := parsePlaceholderTail_length h
    simp only [List.length_drop] at h2
    omega
  · exact absurd h (by simp)

theorem parseVarAt_startsBrace {name s rem : List Char}
    (h : parseVarAt name s = some rem) : ('{' :: '{' :: name).isPrefixOf s = true := by
  unfold parseVarAt at h
  split at h
  · next hpre => exact hpre
  · exact absurd h (by simp)

/-- `re.compile(r"(\{\{)(name)(:[^}]*)?(\}\})").sub(rep, ·)` for a literal
(`re.escape`d) variable name. -/
def subVarAllF (name rep : List Char) : Nat → List Char → List Char
  | 0, s => s
  | fuel + 1, s =>
    match s with
    | [] => []
    | c :: rest =>
      match parseVarAt name (c :: rest) with
      | some rem => rep ++ subVarAllF name rep fuel rem
      | none => c :: subVarAllF name rep fuel rest

def subVarAll (name rep : List Char) (s : List Char) : List Char :=
  subVarAllF name rep s.length s

theorem subVarAllF_congr (name rep : List Char) :
    ∀ (f1 : Nat) (s : List Char) (f2 : Nat), s.length ≤ f1 → s.length ≤ f2 →
      subVarAllF name rep f1 s = subVarAllF name rep f2 s := by
  intro f1
  induction f1 with
  | zero =>
    intro s f2 h1 _
    have : s = [] := List.length_eq_zero.mp (Nat.le_zero.mp h1)
    subst this
    cases f2 <;> rfl
  | succ f ih =>
    intro s f2 h1 h2
    cases s with
    | nil => cases f2 <;> rfl
    | cons c rest =>
      cases f2 with
      | zero => simp at h2
      | succ f2' =>
        simp only [subVarAllF]
        cases hp : parseVarAt name (c :: rest) with
        | some rem =>
          dsimp only
          have hl := parseVarAt_length hp
          simp only [List.length_cons] at h1 h2 hl
          rw [ih rem f2' (by omega) (by omega)]
        | none =>
          dsimp only
          simp only [List.length_cons] at h1 h2
          rw [ih rest f2' (by omega) (by omega)]

/-- Attempt to match the permissive `VAR_PATTERN`
`\{\{([^:}]+)(:([^}]*))?\}\}` at the start of `s`; on success returns
(full matched text, group 1 = name, group 3 = default, remainder). -/
def parseVarPatternAt (s : List Char) :
    Option (List Char × List Char × Option (List Char) × List Char) :=
  if ['{', '{'].isPrefixOf s then
    let r0 := s.drop 2
    let name := r0.takeWhile (fun c => !(c == ':') && !(c == '}'))
    if name.isEmpty then none
    else
      match r0.drop name.length with
      | ':' :: r2 =>
        let dflt := r2.takeWhile (fun c => !(c == '}'))
        match expectClose (r2.drop dflt.length) with
        | some rem =>
          some ('{' :: '{' :: name ++ ':' :: dflt ++ ['}', '}'], name, some dflt, rem)
        | none => none
      | r1 =>
        match expectClose r1 with
        | some rem => some ('{' :: '{' :: name ++ ['}', '}'], name, none, rem)
        | none => none
  else none

theorem length_takeWhile_le {α : Type} (p : α → Bool) (l : List α) :
    (l.takeWhile p).length ≤ l.length := by
  induction l with
  | nil => simp
  | cons a l ih =>
    rw [List.takeWhile_cons]
    split
    · simpa using ih
    · simp

theorem parseVarPatternAt_length {s full name : List Char} {d : Option (List Char)}
    {rem : List Char} (h : parseVarPatternAt s = some (full, name, d, rem)) :
    rem.length < s.length := by
  unfold parseVarPatternAt at h
  split at h
  · next hpre =>
    have h2 : 2 ≤ s.length := by
      match s, hpre with
      | c1 :: c2 :: s', _ => simp
      | [], hpre => simp [List.isPrefixOf] at hpre
      | [c], hpre => simp [List.isPrefixOf] at hpre
    simp only [] at h
    split at h
    · exact absurd h (by simp)
    · split at h
      · next r2 heq =>
        split at h
        · next rem' hclose =>
          cases h
          have hc := expectClose_some hclose
          have e1 := congrArg List.length heq
          have e2 := congrArg List.length hc
          simp only [List.length_drop, List.length_cons] at e1 e2
          omega
        · exact absurd h (by simp)
      · next hne =>
        split at h
        · next rem' hclose =>
          cases h
          have hc := expectClose_some hclose
          have e1 := congrArg List.length hc
          simp only [List.length_drop, List.length_cons] at e1
          omega
        · exact absurd h (by simp)
  · exact absurd h (by simp)

theorem parseVarPatternAt_startsBrace {s full name : List Char} {d : Option (List Char)}
    {rem : List Char} (h : parseVarPatternAt s = some (full, name, d, rem)) :
    ['{', '{'].isPrefixOf s = true := by
  unfold parseVarPatternAt at h
  split at h
  · next hpre => exact hpre
  · exact absurd h (by simp)

/-- `VAR_PATTERN.finditer`: all non-overlapping matches, left to right,
as (full text, name group, default group). -/
def findVarMatchesF : Nat → List Char → List (List Char × List Char × Option (List Char))
  | 0, _ => []
  | fuel + 1, s =>
    match s with
    | [] => []
    | c :: rest =>
      match parseVarPatternAt (c :: rest) with
      | some (full, name, d, rem) => (full, name, d) :: findVarMatchesF fuel rem
      | none => findVarMatchesF fuel rest

def findVarMatches (s : List Char) : List (List Char × List Char × Option (List Char)) :=
  findVarMatchesF s.length s

theorem findVarMatchesF_congr :
    ∀ (f1 : Nat) (s : List Char) (f2 : Nat), s.length ≤ f1 → s.length ≤ f2 →
      findVarMatchesF f1 s = findVarMatchesF f2 s := by
  intro f1
  induction f1 with
  | zero =>
    intro s f2 h1 _
    have : s = [] := List.length_eq_zero.mp (Nat.le_zero.mp h1)
    subst this
    cases f2 <;> rfl
  | succ f ih =>
    intro s f2 h1 h2
    cases s with
    | nil => cases f2 <;> rfl
    | cons c rest =>
      cases f2 with
      | zero => simp at h2
      | succ f2' =>
        simp only [findVarMatchesF]
        cases hp : parseVarPatternAt (c :: rest) with
        | some q =>
          obtain ⟨full, name, d, rem⟩ := q
          dsimp only
          have hl := parseVarPatternAt_length hp
          simp only [List.length_cons] at h1 h2 hl
          rw [ih rem f2' (by omega) (by omega)]
        | none =>
          dsimp only
          simp only [List.length_cons] at h1 h2
          rw [ih rest f2' (by omega) (by omega)]

/-- Python `str.replace(pat, rep)` — replace every (non-overlapping,
left-to-right) occurrence.  Only called with non-empty `pat`. -/
def replaceAllF (pat rep : List Char) : Nat → List Char → List Char
  | 0, s => s
  | fuel + 1, s =>
    match s with
    | [] => []
    | c :: rest =>
      if pat ≠ [] ∧ pat.isPrefixOf (c :: rest) = true then
        rep ++ replaceAllF pat rep fuel ((c :: rest).drop pat.length)
      else c :: replaceAllF pat rep fuel rest

def replaceAll (pat rep : List Char) (s : List Char) : List Char :=
  replaceAllF pat rep s.length s

theorem replaceAllF_congr (pat rep : List Char) :
    ∀ (f1 : Nat) (s : List Char) (f2 : Nat), s.length ≤ f1 → s.length ≤ f2 →
      replaceAllF pat rep f1 s = replaceAllF pat rep f2 s := by
  intro f1
  induction f1 with
  | zero =>
    intro s f2 h1 _
    have : s = [] := List.length_eq_zero.mp (Nat.le_zero.mp h1)
    subst this
    cases f2 <;> rfl
  | succ f ih =>
    intro s f2 h1 h2
    cases s with
    | nil => cases f2 <;> rfl
    | cons c rest =>
      cases f2 with
      | zero => simp at h2
      | succ f2' =>
        simp only [replaceAllF]
        by_cases hc : pat ≠ [] ∧ pat.isPrefixOf (c :: rest) = true
        · rw [if_pos hc, if_pos hc]
          have hp : 1 ≤ pat.length := by
            cases pat with
            | nil => exact absurd rfl hc.1
            | cons p pt => simp
          simp only [List.length_cons] at h1 h2
          rw [ih ((c :: rest).drop pat.length) f2'
            (by simp only [List.length_drop, List.length_cons]; omega)
            (by simp only [List.length_drop, List.length_cons]; omega)]
        · rw [if_neg hc, if_neg hc]
          simp only [List.length_cons] at h1 h2
          rw [ih rest f2' (by omega) (by omega)]

/-- Python `int(s)` restricted to an optional sign followed by digits
(after stripping whitespace); other shapes are treated as unparsable,
matching the `except (ValueError, TypeError)` paths that consume it. -/
def pyInt (s : List Char) : Option Int :=
  match pyStrip s with
  | '-' :: ds => if ds ≠ [] ∧ ds.all Char.isDigit then some (-(digitsVal ds : Int)) else none
  | '+' :: ds => if ds ≠ [] ∧ ds.all Char.isDigit then some (digitsVal ds) else none
  | ds => if ds ≠ [] ∧ ds.all Char.isDigit then some (digitsVal ds) else none

/-- Python `str.zfill(w)`: left-pad with `'0'` to width `w`, keeping a
leading sign in place. -/
def pyZfill (s : List Char) (w : Nat) : List Char :=
  match s with
  | '-' :: rest =>
    if rest.length + 1 < w then '-' :: (List.replicate (w - 1 - rest.length) '0' ++ rest) else s
  | '+' :: rest =>
    if rest.length + 1 < w then '+' :: (List.replicate (w - 1 - rest.length) '0' ++ rest) else s
  | _ => if s.length < w then List.replicate (w - s.length) '0' ++ s else s

/-- Session-variable maps (`current_session_vars`): insertion-ordered
name/value pairs, looked up by exact name. -/
abbrev Vars : Type := List (String × String)

/-- First pass of `resolve_command_string`: handle the global TAKE
variable, zero-padding numeric session values to 3 digits. -/
def resolveTakeStage (tmpl : List Char) (session_vars : Vars) : List Char :=
  match session_vars.lookup "TAKE" with
  | none => tmpl
  | some v =>
    match pyInt v.data with
    | some n => subTakeAll (pyZfill (toString n).data 3) tmpl
    | none => subTakeAll v.data tmpl

/-- Second pass: substitute every other session variable in map order. -/
def resolveVarsStage (tmpl : List Char) (session_vars : Vars) : List Char :=
  session_vars.foldl
    (fun acc nv =>
      if pyUpper nv.1.data ≠ "TAKE".data then subVarAll nv.1.data nv.2.data acc else acc)
    tmpl

/-- Final pass: seed and substitute any remaining placeholders with their
in-template defaults (mutating the session map). -/
def resolveFinalPass (tmpl : List Char) (session_vars : Vars) : List Char × Vars :=
  (findVarMatches tmpl).foldl
    (fun st m =>
      let varName : String := ⟨pyStrip m.2.1⟩
      let dflt : String := ⟨(m.2.2).getD []⟩
      if pyUpper varName.data ≠ "TAKE".data ∧ st.2.lookup varName = none then
        (replaceAll m.1 dflt.data st.1, st.2 ++ [(varName, dflt)])
      else st)
    (tmpl, session_vars)

/-- `resolve_command_string` from the final driver.  Returns the resolved
string together with the (possibly extended) session-variable map, since
the final pass seeds newly discovered placeholder names. -/
def resolve_command_string (command_str_template : String) (session_vars : Vars) :
    String × Vars :=
  let step1 := resolveTakeStage command_str_template.data session_vars
  let step2 := resolveVarsStage step1 session_vars
  let step3 := resolveFinalPass step2 session_vars
  (⟨replaceAll ['\\', '"'] ['"'] step3.1⟩, step3.2)

/-! ### Resolver lemmas -/

theorem parseTakeAt_head {c : Char} {rest rem : List Char}
    (h : parseTakeAt (c :: rest) = some rem) : c = '{' := by
  have := parseTakeAt_startsBrace h
  simp [List.isPrefixOf] at this
  exact this.1.symm

theorem parseVarAt_head {name : List Char} {c : Char} {rest rem : List Char}
    (h : parseVarAt name (c :: rest) = some rem) : c = '{' := by
  have := parseVarAt_startsBrace h
  simp [List.isPrefixOf] at this
  exact this.1.symm

theorem parseVarPatternAt_head {c : Char} {rest full name : List Char}
    {d : Option (List Char)} {rem : List Char}
    (h : parseVarPatternAt (c :: rest) = some (full, name, d, rem)) : c = '{' := by
  have := parseVarPatternAt_startsBrace h
  simp [List.isPrefixOf] at this
  exact this.1.symm

theorem subTakeAll_nil (rep : List Char) : subTakeAll rep [] = [] := rfl

theorem subTakeAll_cons_none {c : Char} {rest : List Char} (rep : List Char)
    (h : parseTakeAt (c :: rest) = none) :
    subTakeAll rep (c :: rest) = c :: subTakeAll rep rest := by
  show subTakeAllF rep (c :: rest).length (c :: rest) = c :: subTakeAllF rep rest.length rest
  simp only [List.length_cons, subTakeAllF]
  rw [h]

theorem subTakeAll_cons_some {c : Char} {rest rem : List Char} (rep : List Char)
    (h : parseTakeAt (c :: rest) = some rem) :
    subTakeAll rep (c :: rest) = rep ++ subTakeAll rep rem := by
  show subTakeAllF rep (c :: rest).length (c :: rest) = rep ++ subTakeAllF rep rem.length rem
  simp only [List.length_cons, subTakeAllF]
  rw [h]
  dsimp only
  have hl := parseTakeAt_length h
  simp only [List.length_cons] at hl
  rw [subTakeAllF_congr rep rest.length rem rem.length (by omega) (le_refl _)]

theorem subVarAll_nil (name rep : List Char) : subVarAll name rep [] = [] := rfl

theorem subVarAll_cons_none {name : List Char} {c : Char} {rest : List Char}
    (rep : List Char) (h : parseVarAt name (c :: rest) = none) :
    subVarAll name rep (c :: rest) = c :: subVarAll name rep rest := by
  show subVarAllF name rep (c :: rest).length (c :: rest) = c :: subVarAllF name rep rest.length rest
  simp only [List.length_cons, subVarAllF]
  rw [h]

theorem findVarMatches_nil : findVarMatches [] = [] := rfl

theorem findVarMatches_cons_none {c : Char} {rest : List Char}
    (h : parseVarPatternAt (c :: rest) = none) :
    findVarMatches (c :: rest) = findVarMatches rest := by
  show findVarMatchesF (c :: rest).length (c :: rest) = findVarMatchesF rest.length rest
  simp only [List.length_cons, findVarMatchesF]
  rw [h]

theorem replaceAll_nil (pat rep : List Char) : replaceAll pat rep [] = [] := rfl

/-- A string without the character `p` is untouched by `replaceAll` for a
pattern starting with `p`. -/
theorem replaceAll_noChar {p : Char} {pt s : List Char} (rep : List Char)
    (h : ∀ c ∈ s, c ≠ p) : replaceAll (p :: pt) rep s = s := by
  induction s with
  | nil => exact replaceAll_nil _ _
  | cons c rest ih =>
    show replaceAllF (p :: pt) rep (c :: rest).length (c :: rest) = c :: rest
    simp only [List.length_cons, replaceAllF]
    have hc : ¬ ((p :: pt) ≠ [] ∧ (p :: pt).isPrefixOf (c :: rest) = true) := by
      rintro ⟨-, hpre⟩
      simp [List.isPrefixOf] at hpre
      exact h c (by simp) hpre.1.symm
    rw [if_neg hc]
    exact congrArg (c :: ·) (ih (fun x hx => h x (by simp [hx])))

/-- A string without `'{'` is untouched by the TAKE substitution. -/
theorem subTakeAll_noChar {s : List Char} (rep : List Char)
    (h : ∀ c ∈ s, c ≠ '{') : subTakeAll rep s = s := by
  induction s with
  | nil => exact subTakeAll_nil _
  | cons c rest ih =>
    have hn : parseTakeAt (c :: rest) = none := by
      cases hp : parseTakeAt (c :: rest) with
      | none => rfl
      | some rem => exact absurd (parseTakeAt_head hp) (h c (by simp))
    rw [subTakeAll_cons_none rep hn]
    exact congrArg (c :: ·) (ih (fun x hx => h x (by simp [hx])))

/-- A string without `'{'` is untouched by a per-variable substitution. -/
theorem subVarAll_noChar {s : List Char} (name rep : List Char)
    (h : ∀ c ∈ s, c ≠ '{') : subVarAll name rep s = s := by
  induction s with
  | nil => exact subVarAll_nil _ _
  | cons c rest ih =>
    have hn : parseVarAt name (c :: rest) = none := by
      cases hp : parseVarAt name (c :: rest) with
      | none => rfl
      | some rem => exact absurd (parseVarAt_head hp) (h c (by simp))
    rw [subVarAll_cons_none rep hn]
    exact congrArg (c :: ·) (ih (fun x hx => h x (by simp [hx])))

/-- A string without `'{'` has no `VAR_PATTERN` matches. -/
theorem findVarMatches_noChar {s : List Char} (h : ∀ c ∈ s, c ≠ '{') :
    findVarMatches s = [] := by
  induction s with
  | nil => exact findVarMatches_nil
  | cons c rest ih =>
    have hn : parseVarPatternAt (c :: rest) = none := by
      cases hp : parseVarPatternAt (c :: rest) with
      | none => rfl
      | some q =>
        obtain ⟨full, name, d, rem⟩ := q
        exact absurd (parseVarPatternAt_head hp) (h c (by simp))
    rw [findVarMatches_cons_none hn]
    exact ih (fun x hx => h x (by simp [hx]))

theorem isPrefixOf_two_of_cons {x y : Char} {t s : List Char}
    (h : (x :: y :: t).isPrefixOf s = true) : [x, y].isPrefixOf s = true := by
  match s with
  | [] => simp [List.isPrefixOf] at h
  | [a] => simp [List.isPrefixOf] at h
  | a :: b :: s' =>
    simp [List.isPrefixOf] at h ⊢
    exact ⟨h.1, h.2.1⟩

theorem subTakeAll_noOpen {s : List Char} (rep : List Char)
    (h : containsSeq ['{', '{'] s = false) : subTakeAll rep s = s := by
  induction s with
  | nil => exact subTakeAll_nil _
  | cons c rest ih =>
    simp only [containsSeq, Bool.or_eq_false_iff] at h
    have hn : parseTakeAt (c :: rest) = none := by
      cases hp : parseTakeAt (c :: rest) with
      | none => rfl
      | some rem =>
        rw [parseTakeAt_startsBrace hp] at h
        exact absurd h.1 (by simp)
    rw [subTakeAll_cons_none rep hn]
    exact congrArg (c :: ·) (ih h.2)

theorem subVarAll_noOpen {s : List Char} (name rep : List Char)
    (h : containsSeq ['{', '{'] s = false) : subVarAll name rep s = s := by
  induction s with
  | nil => exact subVarAll_nil _ _
  | cons c rest ih =>
    simp only [containsSeq, Bool.or_eq_false_iff] at h
    have hn : parseVarAt name (c :: rest) = none := by
      cases hp : parseVarAt name (c :: rest) with
      | none => rfl
      | some rem =>
        rw [isPrefixOf_two_of_cons (parseVarAt_startsBrace hp)] at h
        exact absurd h.1 (by simp)
    rw [subVarAll_cons_none rep hn]
    exact congrArg (c :: ·) (ih h.2)

theorem findVarMatches_noOpen {s : List Char}
    (h : containsSeq ['{', '{'] s = false) : findVarMatches s = [] := by
  induction s with
  | nil => exact findVarMatches_nil
  | cons c rest ih =>
    simp only [containsSeq, Bool.or_eq_false_iff] at h
    have hn : parseVarPatternAt (c :: rest) = none := by
      cases hp : parseVarPatternAt (c :: rest) with
      | none => rfl
      | some q =>
        obtain ⟨full, name, d, rem⟩ := q
        rw [parseVarPatternAt_startsBrace hp] at h
        exact absurd h.1 (by simp)
    rw [findVarMatches_cons_none hn]
    exact ih h.2

theorem replaceAll_noOccur {pat s : List Char} (rep : List Char)
    (hne : pat ≠ []) (h : containsSeq pat s = false) : replaceAll pat rep s = s := by
  induction s with
  | nil => exact replaceAll_nil _ _
  | cons c rest ih =>
    simp only [containsSeq, Bool.or_eq_false_iff] at h
    show replaceAllF pat rep (c :: rest).length (c :: rest) =
      c :: rest
    simp only [List.length_cons, replaceAllF]
    have hc : ¬ (pat ≠ [] ∧ pat.isPrefixOf (c :: rest) = true) := by
      rintro ⟨-, hpre⟩
      rw [hpre] at h
      exact absurd h.1 (by simp)
    rw [if_neg hc]
    exact congrArg (c :: ·) (ih h.2)

/-- The TAKE pass is a no-op on a string with no `{{`. -/
theorem resolveTakeStage_noOpen (tmpl : List Char) (vs : Vars)
    (h : containsSeq ['{', '{'] tmpl = false) :
    resolveTakeStage tmpl vs = tmpl := by
  unfold resolveTakeStage
  cases vs.lookup "TAKE" with
  | none => rfl
  | some v =>
    dsimp only
    cases pyInt v.data with
    | none => exact subTakeAll_noOpen _ h
    | some n => exact subTakeAll_noOpen _ h

/-- The second pass over the session map is a no-op on a string with no
`{{`. -/
theorem resolveVarsStage_noOpen (vs : Vars) (acc : List Char)
    (h : containsSeq ['{', '{'] acc = false) :
    resolveVarsStage acc vs = acc := by
  unfold resolveVarsStage
  induction vs with
  | nil => rfl
  | cons nv t ih =>
    rw [List.foldl_cons]
    have he : (if pyUpper nv.1.data ≠ "TAKE".data then subVarAll nv.1.data nv.2.data acc
        else acc) = acc := by
      split
      · exact subVarAll_noOpen _ _ h
      · rfl
    rw [he]
    exact ih

/-- The final pass does nothing when there is no placeholder match. -/
theorem resolveFinalPass_noMatch (tmpl : List Char) (vs : Vars)
    (h : findVarMatches tmpl = []) : resolveFinalPass tmpl vs = (tmpl, vs) := by
  unfold resolveFinalPass
  rw [h, List.foldl_nil]

/-- C6 (amended): `resolve_command_string` leaves its input (and the
session map) unchanged whenever the input contains no `{{` at all and no
escaped-quote sequence `\"`. -/
theorem resolve_command_string_noop (s : String) (vars : Vars)
    (h1 : containsSeq ['{', '{'] s.data = false)
    (h2 : containsSeq ['\\', '"'] s.data = false) :
    resolve_command_string s vars = (s, vars) := by
  unfold resolve_command_string
  simp only []
  rw [resolveTakeStage_noOpen s.data vars h1, resolveVarsStage_noOpen vars s.data h1,
    resolveFinalPass_noMatch s.data vars (findVarMatches_noOpen h1)]
  rw [replaceAll_noOccur _ (by simp) h2]

/-- C6 counterexample: the input `a\"b` contains no `{{...}}` placeholder
(no `VAR_PATTERN` match), yet `resolve_command_string` does not return it
unchanged — the final `replace('\\"','"')` unescape rewrites it. -/
theorem resolve_not_idempotent_counterexample :
    findVarMatches "a\\\"b".data = [] ∧
    (resolve_command_string "a\\\"b" []).1 ≠ "a\\\"b" := by
  refine ⟨rfl, ?_⟩
  decide

/-- Witness for the amended C6 theorem at a concrete input. -/
theorem resolve_command_string_noop_witness :
    containsSeq ['{', '{'] "echo hello".data = false ∧
    containsSeq ['\\', '"'] "echo hello".data = false ∧
    resolve_command_string "echo hello" [("A", "1")] = ("echo hello", [("A", "1")]) :=
  ⟨by decide, by decide,
    resolve_command_string_noop "echo hello" [("A", "1")] (by decide) (by decide)⟩

/-! ### C5: TAKE is resolved first and zero-padded -/

/-- `"sep".join`-style interleaving: the template consisting of `parts`
separated by single `sep` markers. -/
def joinSep (sep : List Char) : List (List Char) → List Char
  | [] => []
  | [a] => a
  | a :: b :: t => a ++ sep ++ joinSep sep (b :: t)

/-- A TAKE substitution passes unchanged over a `'{'`-free prefix. -/
theorem subTakeAll_append_noChar {a : List Char} (rep rest : List Char)
    (ha : ∀ c ∈ a, c ≠ '{') :
    subTakeAll rep (a ++ rest) = a ++ subTakeAll rep rest := by
  induction a with
  | nil => rfl
  | cons c a' ih =>
    have hn : parseTakeAt (c :: (a' ++ rest)) = none := by
      cases hp : parseTakeAt (c :: (a' ++ rest)) with
      | none => rfl
      | some rem => exact absurd (parseTakeAt_head hp) (ha c (by simp))
    rw [List.cons_append, subTakeAll_cons_none rep hn]
    rw [ih (fun x hx => ha x (by simp [hx]))]
    rfl

/-- The TAKE pattern matches the literal `{{TAKE}}` marker exactly. -/
theorem parseTakeAt_marker (rest : List Char) :
    parseTakeAt ('{' :: '{' :: 'T' :: 'A' :: 'K' :: 'E' :: '}' :: '}' :: rest) = some rest := rfl

theorem subTakeAll_marker (rep rest : List Char) :
    subTakeAll rep ("{{TAKE}}".data ++ rest) = rep ++ subTakeAll rep rest := by
  have he : "{{TAKE}}".data ++ rest = '{' :: '{' :: 'T' :: 'A' :: 'K' :: 'E' :: '}' :: '}' :: rest := rfl
  rw [he]
  exact subTakeAll_cons_some rep (parseTakeAt_marker rest)

/-- Substituting the TAKE marker throughout a `'{'`-free-parts template. -/
theorem subTakeAll_joinSep (rep : List Char) (parts : List (List Char))
    (hp : ∀ p ∈ parts, ∀ c ∈ p, c ≠ '{') :
    subTakeAll rep (joinSep "{{TAKE}}".data parts) = joinSep rep parts := by
  induction parts with
  | nil => exact subTakeAll_nil _
  | cons a t ih =>
    cases t with
    | nil =>
      exact subTakeAll_noChar rep (hp a (by simp))
    | cons b t' =>
      show subTakeAll rep (a ++ "{{TAKE}}".data ++ joinSep "{{TAKE}}".data (b :: t')) = _
      rw [List.append_assoc, subTakeAll_append_noChar rep _ (hp a (by simp)),
        subTakeAll_marker]
      rw [ih (fun q hq => hp q (by simp [hq]))]
      show a ++ (rep ++ joinSep rep (b :: t')) = a ++ rep ++ joinSep rep (b :: t')
      rw [List.append_assoc]

theorem joinSep_noChar {x : Char} {sep : List Char} {parts : List (List Char)}
    (hs : ∀ c ∈ sep, c ≠ x) (hp : ∀ p ∈ parts, ∀ c ∈ p, c ≠ x) :
    ∀ c ∈ joinSep sep parts, c ≠ x := by
  induction parts with
  | nil => simp [joinSep]
  | cons a t ih =>
    cases t with
    | nil => exact hp a (by simp)
    | cons b t' =>
      intro c hc
      show c ≠ x
      have : c ∈ a ++ sep ++ joinSep sep (b :: t') := hc
      simp only [List.mem_append] at this
      rcases this with (h | h) | h
      · exact hp a (by simp) c h
      · exact hs c h
      · exact ih (fun q hq => hp q (by simp [hq])) c h

/-- Resolving a template made of brace-free, backslash-free parts joined
by `{{TAKE}}` markers, in a session whose only variable is TAKE: the TAKE
stage substitutes every marker with `rep` and all later passes are
no-ops. -/
theorem resolve_joinSep_take (parts : List (List Char)) (v : String) (rep : List Char)
    (hp : ∀ p ∈ parts, ∀ c ∈ p, c ≠ '{' ∧ c ≠ '\\')
    (hstage : resolveTakeStage (joinSep "{{TAKE}}".data parts) [("TAKE", v)] =
      subTakeAll rep (joinSep "{{TAKE}}".data parts))
    (hrep : ∀ c ∈ rep, c ≠ '{' ∧ c ≠ '\\') :
    (resolve_command_string ⟨joinSep "{{TAKE}}".data parts⟩ [("TAKE", v)]).1 =
      ⟨joinSep rep parts⟩ := by
  have hbrace : ∀ c ∈ joinSep rep parts, c ≠ '{' :=
    joinSep_noChar (fun c hc => (hrep c hc).1) (fun p hq c hc => (hp p hq c hc).1)
  have hback : ∀ c ∈ joinSep rep parts, c ≠ '\\' :=
    joinSep_noChar (fun c hc => (hrep c hc).2) (fun p hq c hc => (hp p hq c hc).2)
  unfold resolve_command_string
  dsimp only
  rw [hstage, subTakeAll_joinSep rep parts (fun p hq c hc => (hp p hq c hc).1)]
  have h2 : resolveVarsStage (joinSep rep parts) [("TAKE", v)] = joinSep rep parts := by
    unfold resolveVarsStage
    rw [List.foldl_cons]
    have hcond : ¬ pyUpper (("TAKE", v) : String × String).1.data ≠ "TAKE".data := by
      show ¬ pyUpper "TAKE".data ≠ "TAKE".data
      decide
    rw [if_neg hcond]
    rfl
  rw [h2, resolveFinalPass_noMatch _ _ (findVarMatches_noChar hbrace)]
  rw [replaceAll_noChar _ hback]

/-- C5: TAKE is resolved before all other variables; with session
`TAKE = "7"` every `{{TAKE}}` placeholder resolves to `"007"` (zero-padded
regardless of stored representation, e.g. also from `"0007"`), and a
non-numeric `TAKE = "abc"` substitutes verbatim.  The last conjunct
witnesses the order: a `{{TAKE}}` introduced by another variable's value
is *not* resolved, because the TAKE pass has already run. -/
theorem resolve_take_resolution (parts : List (List Char))
    (hp : ∀ p ∈ parts, ∀ c ∈ p, c ≠ '{' ∧ c ≠ '\\') :
    (resolve_command_string ⟨joinSep "{{TAKE}}".data parts⟩ [("TAKE", "7")]).1 =
      ⟨joinSep "007".data parts⟩ ∧
    (resolve_command_string ⟨joinSep "{{TAKE}}".data parts⟩ [("TAKE", "0007")]).1 =
      ⟨joinSep "007".data parts⟩ ∧
    (resolve_command_string ⟨joinSep "{{TAKE}}".data parts⟩ [("TAKE", "abc")]).1 =
      ⟨joinSep "abc".data parts⟩ ∧
    (resolve_command_string "{{X}}" [("TAKE", "7"), ("X", "{{TAKE}}")]).1 = "{{TAKE}}" := by
  refine ⟨?_, ?_, ?_, ?_⟩
  · exact resolve_joinSep_take parts "7" "007".data hp rfl (by decide)
  · exact resolve_joinSep_take parts "0007" "007".data hp rfl (by decide)
  · exact resolve_joinSep_take parts "abc" "abc".data hp rfl (by decide)
  · decide

/-- Witness for C5 at a concrete two-part template
`echo {{TAKE}} end`. -/
theorem resolve_take_resolution_witness :
    (∀ p ∈ [("echo ".data : List Char), " end".data], ∀ c ∈ p, c ≠ '{' ∧ c ≠ '\\') ∧
    ((resolve_command_string ⟨joinSep "{{TAKE}}".data ["echo ".data, " end".data]⟩
        [("TAKE", "7")]).1 =
      ⟨joinSep "007".data ["echo ".data, " end".data]⟩ ∧
    (resolve_command_string ⟨joinSep "{{TAKE}}".data ["echo ".data, " end".data]⟩
        [("TAKE", "0007")]).1 =
      ⟨joinSep "007".data ["echo ".data, " end".data]⟩ ∧
    (resolve_command_string ⟨joinSep "{{TAKE}}".data ["echo ".data, " end".data]⟩
        [("TAKE", "abc")]).1 =
      ⟨joinSep "abc".data ["echo ".data, " end".data]⟩ ∧
    (resolve_command_string "{{X}}" [("TAKE", "7"), ("X", "{{TAKE}}")]).1 = "{{TAKE}}") :=
  ⟨by decide, resolve_take_resolution ["echo ".data, " end".data] (by decide)⟩

/-! ## Button store (`get_items`) -/

/-- A row of the `streamdeck` table, as loaded by `get_items`. -/
structure Item where
  id : Int
  label : String
  command : String
  flags : String
  monitor_keyword : String
deriving Repr, DecidableEq

/-- `get_items`: the `SELECT ... ORDER BY id` either yields rows or raises
an `sqlite3.Error` (missing file, wrong schema, locked database), which
the function catches, logging and returning `[]`. -/
def get_items (db_read : Except String (List Item)) : List Item :=
  match db_read with
  | Except.ok rows => rows
  | Except.error _ => []

/-- C10: `get_items` is total at the store boundary — every sqlite error
yields the empty list, indistinguishable from an empty `streamdeck`
table, so the driver continues with zero buttons. -/
theorem get_items_total_on_error (e : String) :
    get_items (Except.error e) = [] ∧
    get_items (Except.error e) = get_items (Except.ok []) :=
  ⟨rfl, rfl⟩

/-! ## Layout engine (`build_page`) -/

/-- Deck geometry: key count and the three fixed control keys
(`cnt`, `load_key_idx`, `up_key_idx`, `down_key_idx` globals; on decks
with at least 15 keys all three exist). -/
structure LayoutCfg where
  cnt : Nat
  load_key_idx : Nat
  up_key_idx : Nat
  down_key_idx : Nat

/-- The state read by `build_page`: the loaded items, the record-toggle
and monitor state maps, and the previous `global_item_idx_to_key_map`. -/
structure LayoutIn where
  items : List Item
  record_toggle_states : Nat → Option String
  monitor_states : Nat → Option String
  prevG2K : Nat → Option Nat

/-- `state_sticky_indices`: a record-toggle state of RECORDING or ERROR
makes the button in-place sticky. -/
def isInplaceSticky (rec : Nat → Option String) (i : Nat) : Bool :=
  match rec i with
  | some st => st == "RECORDING" || st == "ERROR"
  | none => false

/-- `is_layout_sticky`: the sticky flag, or an OSA_FOUND monitor state on
a `?`-flagged button. -/
def isLayoutSticky (mon : Nat → Option String) (i : Nat) (it : Item) : Bool :=
  (parse_flags it.flags).sticky || (mon i == some "OSA_FOUND" && it.flags.data.contains '?')

/-- Python `enumerate` starting at `i`. -/
def pyEnum {α : Type} : Nat → List α → List (Nat × α)
  | _, [] => []
  | i, x :: t => (i, x) :: pyEnum (i + 1) t

def inplaceItems (inp : LayoutIn) : List (Nat × Item) :=
  (pyEnum 0 inp.items).filter (fun gi => isInplaceSticky inp.record_toggle_states gi.1)

def layoutStickyItems (inp : LayoutIn) : List (Nat × Item) :=
  (pyEnum 0 inp.items).filter (fun gi =>
    !isInplaceSticky inp.record_toggle_states gi.1 &&
      isLayoutSticky inp.monitor_states gi.1 gi.2)

def normalItems (inp : LayoutIn) : List (Nat × Item) :=
  (pyEnum 0 inp.items).filter (fun gi =>
    !isInplaceSticky inp.record_toggle_states gi.1 &&
      !isLayoutSticky inp.monitor_states gi.1 gi.2)

/-- The layout dictionaries being built: `slots_taken`, the
`new_labels`/`new_cmds`/`new_flags` triple (always written together, so
collapsed into one map of triples), and the two index maps. -/
structure PageState where
  taken : Nat → Bool
  assign : Nat → Option (String × String × String)
  k2g : Nat → Option Nat
  g2k : Nat → Option Nat

/-- One slot assignment: lock the slot and record all four maps. -/
def placeItem (st : PageState) (key g : Nat) (it : Item) : PageState :=
  { taken := Function.update st.taken key true
    assign := Function.update st.assign key (some (it.label, it.command, it.flags))
    k2g := Function.update st.k2g key (some g)
    g2k := Function.update st.g2k g (some key) }

/-- Step 2 of `build_page`: fixed control slots are taken from the start. -/
def initState (cfg : LayoutCfg) : PageState :=
  { taken := fun s => s == cfg.load_key_idx || s == cfg.up_key_idx || s == cfg.down_key_idx
    assign := fun _ => none
    k2g := fun _ => none
    g2k := fun _ => none }

/-- Lock in-place sticky items to their previous key. -/
def placeInplace (prev : Nat → Option Nat) (st : PageState) (l : List (Nat × Item)) :
    PageState :=
  l.foldl
    (fun st gi =>
      match prev gi.1 with
      | some key => placeItem st key gi.1 gi.2
      | none => st)
    st

/-- The ascending list of slots not yet taken. -/
def availSlots (cfg : LayoutCfg) (st : PageState) : List Nat :=
  (List.range cfg.cnt).filter (fun s => !(st.taken s))

/-- Step 3: place layout-sticky items into the first available slots
(`zip` truncates exactly like the `idx < len(avail)` guard). -/
def placeLayout (st : PageState) (pairs : List ((Nat × Item) × Nat)) : PageState :=
  pairs.foldl (fun st p => placeItem st p.2 p.1.1 p.1.2) st

/-- Step 4: paginate normal items into the remaining slots. -/
def placeNormal (st : PageState) (slotPairs : List (Nat × Nat))
    (normal : List (Nat × Item)) (start : Nat) : PageState :=
  slotPairs.foldl
    (fun st p =>
      match normal.get? (start + p.1) with
      | some gi => placeItem st p.2 gi.1 gi.2
      | none => st)
    st


/-- `ceil(n / s)` on naturals for `s > 0`. -/
def ceilDiv (n s : Nat) : Nat := (n + s - 1) / s

/-- `tot_norm_pg`: ceil of normal count over slot count when both are
positive, else a single page. -/
def tot_norm_pg (normCount numSlots : Nat) : Nat :=
  if normCount ≠ 0 ∧ 0 < numSlots then ceilDiv normCount numSlots else 1

def stateAfterInplace (cfg : LayoutCfg) (inp : LayoutIn) : PageState :=
  placeInplace inp.prevG2K (initState cfg) (inplaceItems inp)

def stateAfterLayout (cfg : LayoutCfg) (inp : LayoutIn) : PageState :=
  placeLayout (stateAfterInplace cfg inp)
    ((layoutStickyItems inp).zip (availSlots cfg (stateAfterInplace cfg inp)))

def paginationSlots (cfg : LayoutCfg) (inp : LayoutIn) : List Nat :=
  availSlots cfg (stateAfterLayout cfg inp)

def total_pages (cfg : LayoutCfg) (inp : LayoutIn) : Nat :=
  tot_norm_pg (normalItems inp).length (paginationSlots cfg inp).length

/-- The rebuilt layout: the assignment maps plus the stored page index. -/
structure PageResult where
  assign : Nat → Option (String × String × String)
  k2g : Nat → Option Nat
  g2k : Nat → Option Nat
  page_index : Nat

/-- `build_page` continuation once the wrapped page index is known. -/
def build_page_at (cfg : LayoutCfg) (inp : LayoutIn) (pageIdx : Nat) : PageResult :=
  let st3 := placeNormal (stateAfterLayout cfg inp)
    (pyEnum 0 (paginationSlots cfg inp)) (normalItems inp)
    (pageIdx * (paginationSlots cfg inp).length)
  let a1 := Function.update st3.assign cfg.load_key_idx (some ("LOAD", "", "W"))
  let a2 := Function.update a1 cfg.up_key_idx (some ("▲", "", "W"))
  let a3 := Function.update a2 cfg.down_key_idx (some ("▼", "", "W"))
  { assign := a3, k2g := st3.k2g, g2k := st3.g2k, page_index := pageIdx }

/-- `build_page`: the requested page index is taken modulo the total page
count (Python `%`, i.e. `Int.emod`), then the layout is rebuilt. -/
def build_page (cfg : LayoutCfg) (inp : LayoutIn) (idx_param : Int) : PageResult :=
  build_page_at cfg inp ((idx_param.emod (total_pages cfg inp)).toNat)

theorem total_pages_pos (cfg : LayoutCfg) (inp : LayoutIn) : 0 < total_pages cfg inp := by
  unfold total_pages tot_norm_pg
  split
  · next h =>
    unfold ceilDiv
    have h1 : 1 ≤ (normalItems inp).length := Nat.one_le_iff_ne_zero.mpr h.1
    exact Nat.div_pos (by omega) h.2
  · exact Nat.one_pos

/-- C2: with `N` normal buttons and `S > 0` remaining pagination slots,
the page count is `max 1 ⌈N/S⌉` (so 1 even when `N = 0`), and requesting
any integer page `P` — negative included — produces exactly the layout
and stored page index of `P mod total_pages`. -/
theorem build_page_pagination (cfg : LayoutCfg) (inp : LayoutIn) (P : Int) :
    (0 < (paginationSlots cfg inp).length →
      total_pages cfg inp =
        max 1 (ceilDiv (normalItems inp).length (paginationSlots cfg inp).length)) ∧
    build_page cfg inp P = build_page cfg inp (P.emod (total_pages cfg inp)) ∧
    (build_page cfg inp P).page_index = (P.emod (total_pages cfg inp)).toNat := by
  refine ⟨?_, ?_, ?_⟩
  · intro hS
    unfold total_pages tot_norm_pg
    split
    · next h =>
      have h1 : 1 ≤ (normalItems inp).length := Nat.one_le_iff_ne_zero.mpr h.1
      have : 1 ≤ ceilDiv (normalItems inp).length (paginationSlots cfg inp).length := by
        unfold ceilDiv
        exact Nat.div_pos (by omega) h.2
      omega
    · next h =>
      have h0 : (normalItems inp).length = 0 := by
        by_contra hne
        exact h ⟨hne, hS⟩
      unfold ceilDiv
      rw [h0]
      have : (0 + (paginationSlots cfg inp).length - 1) /
          (paginationSlots cfg inp).length = 0 :=
        Nat.div_eq_of_lt (by omega)
      omega
  · unfold build_page
    show build_page_at cfg inp ((P % (total_pages cfg inp : Int)).toNat) =
      build_page_at cfg inp
        ((P % (total_pages cfg inp : Int) % (total_pages cfg inp : Int)).toNat)
    rw [Int.emod_emod_of_dvd P dvd_rfl]
  · rfl

/-- Concrete 15-key deck with fixed controls at 0, 5, 10. -/
def witnessCfg : LayoutCfg := ⟨15, 0, 5, 10⟩

/-- A concrete loaded state: one sticky device button, one recording
button previously at slot 7, and twelve normal buttons. -/
def witnessIn : LayoutIn :=
  { items :=
      ⟨1, "dev", "ssh user@host", "@T", ""⟩ ::
        (List.range 13).map (fun i => ⟨(i : Int) + 2, s!"b{i}", "echo", "", ""⟩)
    record_toggle_states := fun g => if g = 3 then some "RECORDING" else none
    monitor_states := fun _ => none
    prevG2K := fun g => if g = 3 then some 7 else none }

/-- Witness for C2 at the concrete deck, requesting page `-1`. -/
theorem build_page_pagination_witness :
    (0 < (paginationSlots witnessCfg witnessIn).length) ∧
    (total_pages witnessCfg witnessIn =
      max 1 (ceilDiv (normalItems witnessIn).length
        (paginationSlots witnessCfg witnessIn).length)) ∧
    build_page witnessCfg witnessIn (-1) =
      build_page witnessCfg witnessIn ((-1 : Int).emod (total_pages witnessCfg witnessIn)) ∧
    (build_page witnessCfg witnessIn (-1)).page_index =
      ((-1 : Int).emod (total_pages witnessCfg witnessIn)).toNat := by
  have h := build_page_pagination witnessCfg witnessIn (-1)
  exact ⟨by decide, h.1 (by decide), h.2.1, h.2.2⟩

/-! ### C1: layout invariants -/

def isFixedKey (cfg : LayoutCfg) (k : Nat) : Prop :=
  k = cfg.load_key_idx ∨ k = cfg.up_key_idx ∨ k = cfg.down_key_idx

instance (cfg : LayoutCfg) (k : Nat) : Decidable (isFixedKey cfg k) := by
  unfold isFixedKey
  infer_instance

/-- Well-formedness of a `global_item_idx_to_key_map`: every recorded key
is a real, non-fixed slot, and no two logical indices share a slot.  It
holds for the cleared map and, as proved below, for every map
`build_page` produces. -/
def PrevWF (cfg : LayoutCfg) (prev : Nat → Option Nat) : Prop :=
  (∀ g k, prev g = some k → k < cfg.cnt ∧ ¬ isFixedKey cfg k) ∧
  (∀ g₁ g₂ k, prev g₁ = some k → prev g₂ = some k → g₁ = g₂)

/-- The three fixed control keys are pairwise distinct (true of every
supported deck geometry). -/
def CfgWF (cfg : LayoutCfg) : Prop :=
  cfg.load_key_idx ≠ cfg.up_key_idx ∧ cfg.load_key_idx ≠ cfg.down_key_idx ∧
    cfg.up_key_idx ≠ cfg.down_key_idx

/-- Invariant maintained over the slot-assignment folds. -/
structure StInv (cfg : LayoutCfg) (st : PageState) : Prop where
  mutual_inv : ∀ k g, st.k2g k = some g ↔ st.g2k g = some k
  placed_taken : ∀ k g, st.k2g k = some g → st.taken k = true
  key_range : ∀ g k, st.g2k g = some k → k < cfg.cnt ∧ ¬ isFixedKey cfg k
  fixed_taken : ∀ k, isFixedKey cfg k → st.taken k = true

theorem initState_taken (cfg : LayoutCfg) (k : Nat) :
    (initState cfg).taken k = true ↔ isFixedKey cfg k := by
  simp [initState, isFixedKey, or_assoc]

theorem initState_inv (cfg : LayoutCfg) : StInv cfg (initState cfg) := by
  refine ⟨?_, ?_, ?_, ?_⟩
  · intro k g
    constructor <;> intro h <;> exact absurd h (by simp [initState])
  · intro k g h
    exact absurd h (by simp [initState])
  · intro g k h
    exact absurd h (by simp [initState])
  · intro k h
    exact (initState_taken cfg k).mpr h

theorem placeItem_inv {cfg : LayoutCfg} {st : PageState} {key g : Nat} {it : Item}
    (hinv : StInv cfg st) (htaken : st.taken key = false) (hg : st.g2k g = none)
    (hklt : key < cfg.cnt) (hkfix : ¬ isFixedKey cfg key) :
    StInv cfg (placeItem st key g it) := by
  refine ⟨?_, ?_, ?_, ?_⟩
  · intro k' g'
    unfold placeItem
    dsimp only
    by_cases hk : k' = key <;> by_cases hgg : g' = g
    · rw [hk, hgg, Function.update_same, Function.update_same]
      simp
    · rw [hk, Function.update_same, Function.update_noteq hgg]
      constructor
      · intro h
        exact absurd (Option.some.inj h) (fun he => hgg he.symm)
      · intro h
        have h1 := (hinv.mutual_inv key g').mpr h
        have h2 := hinv.placed_taken key g' h1
        rw [htaken] at h2
        exact absurd h2 (by simp)
    · rw [hgg, Function.update_noteq hk, Function.update_same]
      constructor
      · intro h
        have h1 := (hinv.mutual_inv k' g).mp h
        rw [hg] at h1
        exact absurd h1 (by simp)
      · intro h
        exact absurd (Option.some.inj h).symm hk
    · rw [Function.update_noteq hk, Function.update_noteq hgg]
      exact hinv.mutual_inv k' g'
  · intro k' g'
    unfold placeItem
    dsimp only
    by_cases hk : k' = key
    · intro _
      rw [hk, Function.update_same]
    · rw [Function.update_noteq hk, Function.update_noteq hk]
      exact hinv.placed_taken k' g'
  · intro g' k'
    unfold placeItem
    dsimp only
    by_cases hgg : g' = g
    · rw [hgg, Function.update_same]
      intro h
      cases Option.some.inj h
      exact ⟨hklt, hkfix⟩
    · rw [Function.update_noteq hgg]
      exact hinv.key_range g' k'
  · intro k' hfix
    unfold placeItem
    dsimp only
    by_cases hk : k' = key
    · rw [hk, Function.update_same]
    · rw [Function.update_noteq hk]
      exact hinv.fixed_taken k' hfix

theorem placeItem_g2k_self (st : PageState) (key g : Nat) (it : Item) :
    (placeItem st key g it).g2k g = some key := by
  unfold placeItem
  dsimp only
  rw [Function.update_same]

theorem placeItem_g2k_other (st : PageState) (key g : Nat) (it : Item) {g' : Nat}
    (h : g' ≠ g) : (placeItem st key g it).g2k g' = st.g2k g' := by
  unfold placeItem
  dsimp only
  rw [Function.update_noteq h]

theorem placeItem_k2g_other (st : PageState) (key g : Nat) (it : Item) {k' : Nat}
    (h : k' ≠ key) : (placeItem st key g it).k2g k' = st.k2g k' := by
  unfold placeItem
  dsimp only
  rw [Function.update_noteq h]

theorem placeItem_taken_other (st : PageState) (key g : Nat) (it : Item) {k' : Nat}
    (h : k' ≠ key) : (placeItem st key g it).taken k' = st.taken k' := by
  unfold placeItem
  dsimp only
  rw [Function.update_noteq h]

/-- A list of pending placements (slot key, logical index, item). -/
def placeList (st : PageState) (l : List (Nat × Nat × Item)) : PageState :=
  l.foldl (fun st p => placeItem st p.1 p.2.1 p.2.2) st

/-- Any optional-step fold of `placeItem` is a `placeList` over the
`filterMap` of its step function. -/
theorem foldl_opt_place {α : Type} (f : α → Option (Nat × Nat × Item)) (l : List α)
    (st : PageState) :
    l.foldl
      (fun st a =>
        match f a with
        | some p => placeItem st p.1 p.2.1 p.2.2
        | none => st)
      st = placeList st (l.filterMap f) := by
  induction l generalizing st with
  | nil => rfl
  | cons a t ih =>
    rw [List.foldl_cons, List.filterMap_cons]
    cases hf : f a with
    | none =>
      rw [ih st]
    | some p =>
      rw [ih (placeItem st p.1 p.2.1 p.2.2)]
      rfl

theorem foldl_ext {α β : Type} (f g : β → α → β) (h : ∀ b a, f b a = g b a) :
    ∀ (l : List α) (b : β), l.foldl f b = l.foldl g b := by
  intro l
  induction l with
  | nil => intro b; rfl
  | cons a t ih =>
    intro b
    rw [List.foldl_cons, List.foldl_cons, h]
    exact ih _

theorem placeInplace_eq (prev : Nat → Option Nat) (st : PageState)
    (l : List (Nat × Item)) :
    placeInplace prev st l =
      placeList st (l.filterMap (fun gi => (prev gi.1).map (fun k => (k, gi.1, gi.2)))) := by
  unfold placeInplace
  rw [← foldl_opt_place]
  apply foldl_ext
  intro st' gi
  cases prev gi.1 <;> rfl

theorem placeLayout_eq (st : PageState) (pairs : List ((Nat × Item) × Nat)) :
    placeLayout st pairs =
      placeList st (pairs.map (fun p => (p.2, p.1.1, p.1.2))) := by
  unfold placeLayout placeList
  rw [List.foldl_map]

theorem placeNormal_eq (st : PageState) (slotPairs : List (Nat × Nat))
    (normal : List (Nat × Item)) (start : Nat) :
    placeNormal st slotPairs normal start =
      placeList st (slotPairs.filterMap
        (fun p => (normal.get? (start + p.1)).map (fun gi => (p.2, gi.1, gi.2)))) := by
  unfold placeNormal
  rw [← foldl_opt_place]
  apply foldl_ext
  intro st' p
  cases normal.get? (start + p.1) <;> rfl

theorem pyEnum_fst_ge {α : Type} :
    ∀ {i : Nat} {l : List α} {p : Nat × α}, p ∈ pyEnum i l → i ≤ p.1 := by
  intro i l
  induction l generalizing i with
  | nil => intro p h; simp [pyEnum] at h
  | cons x t ih =>
    intro p h
    rcases (List.mem_cons).mp h with rfl | h
    · exact le_refl _
    · exact le_trans (Nat.le_succ i) (ih h)

theorem pyEnum_mem {α : Type} :
    ∀ {i : Nat} {l : List α} {p : Nat × α},
      p ∈ pyEnum i l ↔ ∃ j, l.get? j = some p.2 ∧ p.1 = i + j := by
  intro i l
  induction l generalizing i with
  | nil => simp [pyEnum]
  | cons x t ih =>
    intro p
    simp only [pyEnum, List.mem_cons]
    constructor
    · rintro (rfl | hm)
      · exact ⟨0, by simp, by simp⟩
      · obtain ⟨j, hj1, hj2⟩ := ih.mp hm
        exact ⟨j + 1, by simpa using hj1, by omega⟩
    · rintro ⟨j, hj1, hj2⟩
      cases j with
      | zero =>
        left
        simp only [List.get?] at hj1
        cases p
        simp at hj1 hj2 ⊢
        exact ⟨hj2, hj1.symm⟩
      | succ j' =>
        right
        refine ih.mpr ⟨j', ?_, by omega⟩
        simpa using hj1

theorem pyEnum_pairwise {α : Type} {S0 : α → α → Prop} :
    ∀ {l : List α} {i : Nat}, l.Pairwise S0 →
      (pyEnum i l).Pairwise (fun a b => a.1 < b.1 ∧ S0 a.2 b.2) := by
  intro l
  induction l with
  | nil => intro i _; simp [pyEnum]
  | cons x t ih =>
    intro i h
    rw [List.pairwise_cons] at h
    refine List.Pairwise.cons ?_ (ih h.2)
    intro q hq
    constructor
    · exact lt_of_lt_of_le (Nat.lt_succ_self i) (pyEnum_fst_ge hq)
    · obtain ⟨j, hj1, -⟩ := pyEnum_mem.mp hq
      exact h.1 q.2 (by
        have := List.get?_mem hj1
        exact this)

theorem pairwise_filterMap_t {α β : Type} {R : α → α → Prop} {S : β → β → Prop}
    (f : α → Option β) (h : ∀ a b x y, f a = some x → f b = some y → R a b → S x y) :
    ∀ {l : List α}, l.Pairwise R → (l.filterMap f).Pairwise S := by
  intro l
  induction l with
  | nil => simp
  | cons a t ih =>
    intro hp
    rw [List.pairwise_cons] at hp
    rw [List.filterMap_cons]
    cases hf : f a with
    | none => exact ih hp.2
    | some x =>
      refine List.Pairwise.cons ?_ (ih hp.2)
      intro y hy
      obtain ⟨b, hb, hfb⟩ := List.mem_filterMap.mp hy
      exact h a b x y hf hfb (hp.1 b hb)

theorem pairwise_zip {α β : Type} {R1 : α → α → Prop} {R2 : β → β → Prop} :
    ∀ {l1 : List α} {l2 : List β}, l1.Pairwise R1 → l2.Pairwise R2 →
      (l1.zip l2).Pairwise (fun a b => R1 a.1 b.1 ∧ R2 a.2 b.2) := by
  intro l1
  induction l1 with
  | nil => intro l2 _ _; simp
  | cons a t ih =>
    intro l2 h1 h2
    cases l2 with
    | nil => simp
    | cons b t2 =>
      rw [List.pairwise_cons] at h1
      rw [List.pairwise_cons] at h2
      refine List.Pairwise.cons ?_ (ih h1.2 h2.2)
      intro q hq
      have hm := List.of_mem_zip hq
      exact ⟨h1.1 q.1 hm.1, h2.1 q.2 hm.2⟩

theorem availSlots_mem {cfg : LayoutCfg} {st : PageState} {s : Nat} :
    s ∈ availSlots cfg st ↔ s < cfg.cnt ∧ st.taken s = false := by
  unfold availSlots
  rw [List.mem_filter, List.mem_range]
  simp

theorem availSlots_pairwise (cfg : LayoutCfg) (st : PageState) :
    (availSlots cfg st).Pairwise (· < ·) :=
  (List.pairwise_lt_range cfg.cnt).sublist (List.filter_sublist _)

/-- Master fold lemma: placing a list of fresh, pairwise-distinct
slot/index pairs preserves the invariant, records each placement in
`g2k`, and leaves untouched indices and slots unchanged. -/
theorem placeList_inv {cfg : LayoutCfg} :
    ∀ (l : List (Nat × Nat × Item)) (st : PageState), StInv cfg st →
      (∀ p ∈ l, st.taken p.1 = false) →
      (∀ p ∈ l, st.g2k p.2.1 = none) →
      (∀ p ∈ l, p.1 < cfg.cnt ∧ ¬ isFixedKey cfg p.1) →
      l.Pairwise (fun p q => p.1 ≠ q.1 ∧ p.2.1 ≠ q.2.1) →
      StInv cfg (placeList st l) ∧
      (∀ p ∈ l, (placeList st l).g2k p.2.1 = some p.1) ∧
      (∀ g, (∀ p ∈ l, p.2.1 ≠ g) → (placeList st l).g2k g = st.g2k g) ∧
      (∀ k, (∀ p ∈ l, p.1 ≠ k) → (placeList st l).taken k = st.taken k) := by
  intro l
  induction l with
  | nil =>
    intro st hinv _ _ _ _
    exact ⟨hinv, by simp, fun g _ => rfl, fun k _ => rfl⟩
  | cons p t ih =>
    intro st hinv hfk hfg hgood hpair
    rw [List.pairwise_cons] at hpair
    have hstep : StInv cfg (placeItem st p.1 p.2.1 p.2.2) :=
      placeItem_inv hinv (hfk p (by simp)) (hfg p (by simp))
        (hgood p (by simp)).1 (hgood p (by simp)).2
    have hfk' : ∀ q ∈ t, (placeItem st p.1 p.2.1 p.2.2).taken q.1 = false := by
      intro q hq
      rw [placeItem_taken_other st _ _ _ (fun he => (hpair.1 q hq).1 he.symm)]
      exact hfk q (by simp [hq])
    have hfg' : ∀ q ∈ t, (placeItem st p.1 p.2.1 p.2.2).g2k q.2.1 = none := by
      intro q hq
      rw [placeItem_g2k_other st _ _ _ (fun he => (hpair.1 q hq).2 he.symm)]
      exact hfg q (by simp [hq])
    obtain ⟨ih1, ih2, ih3, ih4⟩ :=
      ih (placeItem st p.1 p.2.1 p.2.2) hstep hfk' hfg'
        (fun q hq => hgood q (by simp [hq])) hpair.2
    have hplace : placeList st (p :: t) = placeList (placeItem st p.1 p.2.1 p.2.2) t := rfl
    refine ⟨hplace ▸ ih1, ?_, ?_, ?_⟩
    · intro q hq
      rcases List.mem_cons.mp hq with rfl | hq'
      · rw [hplace, ih3 q.2.1 (fun r hr => ((hpair.1 r hr).2).symm)]
        exact placeItem_g2k_self st q.1 q.2.1 q.2.2
      · rw [hplace]
        exact ih2 q hq'
    · intro g hg
      rw [hplace, ih3 g (fun q hq => hg q (by simp [hq]))]
      exact placeItem_g2k_other st _ _ _ (hg p (by simp)).symm
    · intro k hk
      rw [hplace, ih4 k (fun q hq => hk q (by simp [hq]))]
      exact placeItem_taken_other st _ _ _ (hk p (by simp)).symm

theorem pyEnum_pairwise_fst {α : Type} :
    ∀ {l : List α} {i : Nat}, (pyEnum i l).Pairwise (fun a b => a.1 < b.1) := by
  intro l
  induction l with
  | nil => intro i; simp [pyEnum]
  | cons x t ih =>
    intro i
    exact List.Pairwise.cons
      (fun q hq => lt_of_lt_of_le (Nat.lt_succ_self i) (pyEnum_fst_ge hq)) ih

theorem pairwise_get_opt {α : Type} {R : α → α → Prop} {l : List α} (h : l.Pairwise R)
    {i j : Nat} {x y : α} (hx : l.get? i = some x) (hy : l.get? j = some y)
    (hij : i < j) : R x y := by
  obtain ⟨hi, hxe⟩ := List.get?_eq_some.mp hx
  obtain ⟨hj, hye⟩ := List.get?_eq_some.mp hy
  have := List.pairwise_iff_get.mp h ⟨i, hi⟩ ⟨j, hj⟩ hij
  rw [hxe, hye] at this
  exact this

/-- The in-place sticky placements of step 2 of `build_page`. -/
def inplacePlacements (inp : LayoutIn) : List (Nat × Nat × Item) :=
  (inplaceItems inp).filterMap
    (fun gi => (inp.prevG2K gi.1).map (fun k => (k, gi.1, gi.2)))

theorem stateAfterInplace_eq (cfg : LayoutCfg) (inp : LayoutIn) :
    stateAfterInplace cfg inp = placeList (initState cfg) (inplacePlacements inp) :=
  placeInplace_eq _ _ _

theorem mem_inplacePlacements {inp : LayoutIn} {k g : Nat} {it : Item} :
    (k, g, it) ∈ inplacePlacements inp ↔
      (g, it) ∈ inplaceItems inp ∧ inp.prevG2K g = some k := by
  unfold inplacePlacements
  rw [List.mem_filterMap]
  constructor
  · rintro ⟨gi, hm, hmap⟩
    rw [Option.map_eq_some'] at hmap
    obtain ⟨k', hk', heq⟩ := hmap
    have h1 : k' = k := congrArg Prod.fst heq
    have h2 : gi.1 = g := congrArg (fun q => q.2.1) heq
    have h3 : gi.2 = it := congrArg (fun q => q.2.2) heq
    refine ⟨?_, ?_⟩
    · have hgi : gi = (g, it) := Prod.ext h2 h3
      rw [← hgi]
      exact hm
    · rw [← h2, hk', h1]
  · rintro ⟨hm, hk⟩
    exact ⟨(g, it), hm, by rw [hk]; rfl⟩

theorem mem_inplaceItems {inp : LayoutIn} {g : Nat} {it : Item}
    (h : (g, it) ∈ inplaceItems inp) :
    isInplaceSticky inp.record_toggle_states g = true := by
  unfold inplaceItems at h
  exact (List.mem_filter.mp h).2

theorem mem_layoutStickyItems {inp : LayoutIn} {g : Nat} {it : Item}
    (h : (g, it) ∈ layoutStickyItems inp) :
    isInplaceSticky inp.record_toggle_states g = false := by
  unfold layoutStickyItems at h
  have := (List.mem_filter.mp h).2
  simp only [Bool.and_eq_true, Bool.not_eq_true'] at this
  exact this.1

theorem mem_normalItems {inp : LayoutIn} {g : Nat} {it : Item}
    (h : (g, it) ∈ normalItems inp) :
    isInplaceSticky inp.record_toggle_states g = false ∧
      isLayoutSticky inp.monitor_states g it = false := by
  unfold normalItems at h
  have := (List.mem_filter.mp h).2
  simp only [Bool.and_eq_true, Bool.not_eq_true'] at this
  exact this

/-- Stage-1 facts: invariant, recorded retention, untouched indices. -/
theorem stage1 (cfg : LayoutCfg) (inp : LayoutIn) (hprev : PrevWF cfg inp.prevG2K) :
    StInv cfg (stateAfterInplace cfg inp) ∧
    (∀ p ∈ inplacePlacements inp, (stateAfterInplace cfg inp).g2k p.2.1 = some p.1) ∧
    (∀ g, (∀ p ∈ inplacePlacements inp, p.2.1 ≠ g) →
      (stateAfterInplace cfg inp).g2k g = none) := by
  have hfk : ∀ p ∈ inplacePlacements inp, (initState cfg).taken p.1 = false := by
    rintro ⟨k, g, it⟩ hp
    obtain ⟨-, hk⟩ := mem_inplacePlacements.mp hp
    have := (hprev.1 g k hk).2
    have hne := (initState_taken cfg k).not.mpr this
    simp only [Bool.not_eq_true] at hne
    exact hne
  have hfg : ∀ p ∈ inplacePlacements inp, (initState cfg).g2k p.2.1 = none := by
    intro p _
    rfl
  have hgood : ∀ p ∈ inplacePlacements inp, p.1 < cfg.cnt ∧ ¬ isFixedKey cfg p.1 := by
    rintro ⟨k, g, it⟩ hp
    obtain ⟨-, hk⟩ := mem_inplacePlacements.mp hp
    exact hprev.1 g k hk
  have hpair : (inplacePlacements inp).Pairwise (fun p q => p.1 ≠ q.1 ∧ p.2.1 ≠ q.2.1) := by
    unfold inplacePlacements
    refine pairwise_filterMap_t _ ?_
      (pyEnum_pairwise_fst.sublist (List.filter_sublist _) :
        (inplaceItems inp).Pairwise (fun a b => a.1 < b.1))
    rintro a b x y hax hby hab
    rw [Option.map_eq_some'] at hax hby
    obtain ⟨ka, hka, hxa⟩ := hax
    obtain ⟨kb, hkb, hyb⟩ := hby
    subst hxa
    subst hyb
    dsimp only
    constructor
    · intro hkk
      rw [hkk] at hka
      exact absurd (hprev.2 a.1 b.1 kb hka hkb) (Nat.ne_of_lt hab)
    · exact Nat.ne_of_lt hab
  obtain ⟨h1, h2, h3, -⟩ :=
    placeList_inv (inplacePlacements inp) (initState cfg) (initState_inv cfg)
      hfk hfg hgood hpair
  rw [stateAfterInplace_eq]
  exact ⟨h1, h2, fun g hg => h3 g hg⟩

/-- The layout-sticky placements of step 3 of `build_page`. -/
def layoutPlacements (cfg : LayoutCfg) (inp : LayoutIn) : List (Nat × Nat × Item) :=
  ((layoutStickyItems inp).zip (availSlots cfg (stateAfterInplace cfg inp))).map
    (fun p => (p.2, p.1.1, p.1.2))

theorem stateAfterLayout_eq (cfg : LayoutCfg) (inp : LayoutIn) :
    stateAfterLayout cfg inp =
      placeList (stateAfterInplace cfg inp) (layoutPlacements cfg inp) :=
  placeLayout_eq _ _

theorem mem_layoutPlacements {cfg : LayoutCfg} {inp : LayoutIn} {k g : Nat} {it : Item} :
    (k, g, it) ∈ layoutPlacements cfg inp ↔
      ((g, it), k) ∈ (layoutStickyItems inp).zip
        (availSlots cfg (stateAfterInplace cfg inp)) := by
  unfold layoutPlacements
  rw [List.mem_map]
  constructor
  · rintro ⟨q, hq, he⟩
    have e1 : q.2 = k := congrArg Prod.fst he
    have e2 : q.1.1 = g := congrArg (fun r => r.2.1) he
    have e3 : q.1.2 = it := congrArg (fun r => r.2.2) he
    have hq' : q = ((g, it), k) := Prod.ext (Prod.ext e2 e3) e1
    rw [← hq']
    exact hq
  · intro hq
    exact ⟨((g, it), k), hq, rfl⟩

/-- Indices recorded by stage 1 are in-place sticky. -/
theorem inplacePlacements_sticky {inp : LayoutIn} {p : Nat × Nat × Item}
    (hp : p ∈ inplacePlacements inp) :
    isInplaceSticky inp.record_toggle_states p.2.1 = true := by
  obtain ⟨k, g, it⟩ := p
  exact mem_inplaceItems (mem_inplacePlacements.mp hp).1

/-- Stage-2 facts: invariant, untouched indices, stage-1 retention. -/
theorem stage2 (cfg : LayoutCfg) (inp : LayoutIn) (hprev : PrevWF cfg inp.prevG2K) :
    StInv cfg (stateAfterLayout cfg inp) ∧
    (∀ g, isInplaceSticky inp.record_toggle_states g = false →
      (∀ q ∈ layoutStickyItems inp, q.1 ≠ g) →
      (stateAfterLayout cfg inp).g2k g = none) ∧
    (∀ p ∈ inplacePlacements inp, (stateAfterLayout cfg inp).g2k p.2.1 = some p.1) := by
  obtain ⟨hA, hA2, hA3⟩ := stage1 cfg inp hprev
  have hnotin : ∀ g, isInplaceSticky inp.record_toggle_states g = false →
      ∀ p ∈ inplacePlacements inp, p.2.1 ≠ g := by
    intro g hg p hp he
    have hst := inplacePlacements_sticky hp
    rw [he, hg] at hst
    exact absurd hst (by simp)
  have hfk : ∀ p ∈ layoutPlacements cfg inp,
      (stateAfterInplace cfg inp).taken p.1 = false := by
    rintro ⟨k, g, it⟩ hp
    have hz := mem_layoutPlacements.mp hp
    exact (availSlots_mem.mp (List.of_mem_zip hz).2).2
  have hfg : ∀ p ∈ layoutPlacements cfg inp,
      (stateAfterInplace cfg inp).g2k p.2.1 = none := by
    rintro ⟨k, g, it⟩ hp
    have hz := mem_layoutPlacements.mp hp
    have hls : (g, it) ∈ layoutStickyItems inp := (List.of_mem_zip hz).1
    exact hA3 g (hnotin g (mem_layoutStickyItems hls))
  have hgood : ∀ p ∈ layoutPlacements cfg inp,
      p.1 < cfg.cnt ∧ ¬ isFixedKey cfg p.1 := by
    rintro ⟨k, g, it⟩ hp
    have hz := mem_layoutPlacements.mp hp
    have hav := availSlots_mem.mp (List.of_mem_zip hz).2
    refine ⟨hav.1, fun hfix => ?_⟩
    have := hA.fixed_taken k hfix
    rw [hav.2] at this
    exact absurd this (by simp)
  have hpair : (layoutPlacements cfg inp).Pairwise
      (fun p q => p.1 ≠ q.1 ∧ p.2.1 ≠ q.2.1) := by
    unfold layoutPlacements
    rw [List.pairwise_map]
    have hz := pairwise_zip
      (pyEnum_pairwise_fst.sublist (List.filter_sublist _) :
        (layoutStickyItems inp).Pairwise (fun a b => a.1 < b.1))
      (availSlots_pairwise cfg (stateAfterInplace cfg inp))
    exact hz.imp (fun hab => ⟨Nat.ne_of_lt hab.2, Nat.ne_of_lt hab.1⟩)
  obtain ⟨h1, h2, h3, -⟩ :=
    placeList_inv (layoutPlacements cfg inp) (stateAfterInplace cfg inp) hA
      hfk hfg hgood hpair
  rw [stateAfterLayout_eq]
  refine ⟨h1, ?_, ?_⟩
  · intro g hg hq
    rw [h3 g ?_]
    · exact hA3 g (hnotin g hg)
    · rintro ⟨k', g', it'⟩ hp he
      have hz := mem_layoutPlacements.mp hp
      exact hq (g', it') (List.of_mem_zip hz).1 he
  · intro p hp
    rw [h3 p.2.1 ?_]
    · exact hA2 p hp
    · rintro ⟨k', g', it'⟩ hp' he
      have hz := mem_layoutPlacements.mp hp'
      have hls := mem_layoutStickyItems (List.of_mem_zip hz).1
      have hst := inplacePlacements_sticky hp
      dsimp only at he
      rw [he] at hls
      rw [hls] at hst
      exact absurd hst (by simp)

/-- The paginated normal placements of step 4 of `build_page`. -/
def normalPlacements (cfg : LayoutCfg) (inp : LayoutIn) (start : Nat) :
    List (Nat × Nat × Item) :=
  (pyEnum 0 (paginationSlots cfg inp)).filterMap
    (fun p => ((normalItems inp).get? (start + p.1)).map (fun gi => (p.2, gi.1, gi.2)))

theorem pyEnum_snd_unique {α : Type} {l : List α} {g : Nat} {x y : α}
    (hx : (g, x) ∈ pyEnum 0 l) (hy : (g, y) ∈ pyEnum 0 l) : x = y := by
  obtain ⟨j1, h1, e1⟩ := pyEnum_mem.mp hx
  obtain ⟨j2, h2, e2⟩ := pyEnum_mem.mp hy
  dsimp only at h1 h2 e1 e2
  have hj : j1 = j2 := by omega
  rw [hj, h2] at h1
  exact (Option.some.inj h1).symm

theorem normal_not_inplace {inp : LayoutIn} {k g : Nat} {it : Item}
    (hp : (k, g, it) ∈ inplacePlacements inp) {g' : Nat} {it' : Item}
    (hn : (g', it') ∈ normalItems inp) : g' ≠ g := by
  intro he
  have h1 := inplacePlacements_sticky hp
  have h2 := (mem_normalItems hn).1
  dsimp only at h1
  rw [he, h1] at h2
  exact absurd h2 (by simp)

theorem normal_not_layout {inp : LayoutIn} {g : Nat} {it : Item}
    (h : (g, it) ∈ normalItems inp) : ∀ q ∈ layoutStickyItems inp, q.1 ≠ g := by
  rintro ⟨g', it'⟩ hq he
  dsimp only at he
  subst he
  have hq1 : (g', it') ∈ pyEnum 0 inp.items := List.mem_of_mem_filter hq
  have hn1 : (g', it) ∈ pyEnum 0 inp.items := List.mem_of_mem_filter h
  have heq : it' = it := pyEnum_snd_unique hq1 hn1
  subst heq
  have hlay := (List.mem_filter.mp hq).2
  simp only [Bool.and_eq_true, Bool.not_eq_true'] at hlay
  have hnorm := (mem_normalItems h).2
  rw [hlay.2] at hnorm
  exact absurd hnorm (by simp)

/-- Stage-3 facts: the full invariant and retention for the final fold. -/
theorem stage3 (cfg : LayoutCfg) (inp : LayoutIn) (start : Nat)
    (hprev : PrevWF cfg inp.prevG2K) :
    StInv cfg (placeList (stateAfterLayout cfg inp) (normalPlacements cfg inp start)) ∧
    (∀ p ∈ inplacePlacements inp,
      (placeList (stateAfterLayout cfg inp)
        (normalPlacements cfg inp start)).g2k p.2.1 = some p.1) := by
  obtain ⟨hB, hB2, hB3⟩ := stage2 cfg inp hprev
  have hmem : ∀ p ∈ normalPlacements cfg inp start,
      ∃ q ∈ pyEnum 0 (paginationSlots cfg inp), ∃ gi,
        (normalItems inp).get? (start + q.1) = some gi ∧
        p.1 = q.2 ∧ p.2.1 = gi.1 ∧ p.2.2 = gi.2 := by
    intro p hp
    obtain ⟨q, hq, hmap⟩ := List.mem_filterMap.mp hp
    rw [Option.map_eq_some'] at hmap
    obtain ⟨gi, hgi, he⟩ := hmap
    exact ⟨q, hq, gi, hgi, (congrArg Prod.fst he).symm,
      (congrArg (fun r => r.2.1) he).symm, (congrArg (fun r => r.2.2) he).symm⟩
  have hfk : ∀ p ∈ normalPlacements cfg inp start,
      (stateAfterLayout cfg inp).taken p.1 = false := by
    intro p hp
    obtain ⟨q, hq, gi, hgi, he1, -, -⟩ := hmem p hp
    obtain ⟨j, hj, -⟩ := pyEnum_mem.mp hq
    have hs : q.2 ∈ paginationSlots cfg inp := List.get?_mem hj
    rw [he1]
    exact (availSlots_mem.mp hs).2
  have hfg : ∀ p ∈ normalPlacements cfg inp start,
      (stateAfterLayout cfg inp).g2k p.2.1 = none := by
    intro p hp
    obtain ⟨q, hq, gi, hgi, -, he2, -⟩ := hmem p hp
    have hgin : gi ∈ normalItems inp := List.get?_mem hgi
    rw [he2]
    have hgi' : (gi.1, gi.2) ∈ normalItems inp := by
      have : (gi.1, gi.2) = gi := rfl
      rw [this]
      exact hgin
    exact hB2 gi.1 (mem_normalItems hgi').1 (normal_not_layout hgi')
  have hgood : ∀ p ∈ normalPlacements cfg inp start,
      p.1 < cfg.cnt ∧ ¬ isFixedKey cfg p.1 := by
    intro p hp
    obtain ⟨q, hq, gi, hgi, he1, -, -⟩ := hmem p hp
    obtain ⟨j, hj, -⟩ := pyEnum_mem.mp hq
    have hs := availSlots_mem.mp (List.get?_mem hj : q.2 ∈ paginationSlots cfg inp)
    rw [he1]
    refine ⟨hs.1, fun hfix => ?_⟩
    have := hB.fixed_taken q.2 hfix
    rw [hs.2] at this
    exact absurd this (by simp)
  have hpair : (normalPlacements cfg inp start).Pairwise
      (fun p q => p.1 ≠ q.1 ∧ p.2.1 ≠ q.2.1) := by
    unfold normalPlacements
    refine pairwise_filterMap_t _ ?_
      (pyEnum_pairwise (availSlots_pairwise cfg (stateAfterLayout cfg inp)) :
        (pyEnum 0 (paginationSlots cfg inp)).Pairwise
          (fun a b => a.1 < b.1 ∧ a.2 < b.2))
    rintro a b x y hax hby hab
    rw [Option.map_eq_some'] at hax hby
    obtain ⟨ga, hga, hxa⟩ := hax
    obtain ⟨gb, hgb, hyb⟩ := hby
    subst hxa
    subst hyb
    dsimp only
    have hnorm : (normalItems inp).Pairwise (fun a b : Nat × Item => a.1 < b.1) :=
      pyEnum_pairwise_fst.sublist (List.filter_sublist _)
    have hg : ga.1 < gb.1 :=
      pairwise_get_opt hnorm hga hgb (by omega)
    exact ⟨Nat.ne_of_lt hab.2, Nat.ne_of_lt hg⟩
  obtain ⟨h1, -, h3, -⟩ :=
    placeList_inv (normalPlacements cfg inp start) (stateAfterLayout cfg inp) hB
      hfk hfg hgood hpair
  refine ⟨h1, ?_⟩
  intro p hp
  rw [h3 p.2.1 ?_]
  · exact hB3 p hp
  · rintro ⟨k', g', it'⟩ hp' he
    obtain ⟨q, hq, gi, hgi, -, he2, -⟩ := hmem (k', g', it') hp'
    dsimp only at he2 he
    have hgin : (gi.1, gi.2) ∈ normalItems inp := List.get?_mem hgi
    exact normal_not_inplace hp hgin (by rw [← he2, he])

theorem build_page_at_core (cfg : LayoutCfg) (inp : LayoutIn) (pageIdx : Nat)
    (hcfg : CfgWF cfg) (hprev : PrevWF cfg inp.prevG2K) :
    (∀ k g, (build_page_at cfg inp pageIdx).k2g k = some g ↔
      (build_page_at cfg inp pageIdx).g2k g = some k) ∧
    ((build_page_at cfg inp pageIdx).assign cfg.load_key_idx = some ("LOAD", "", "W") ∧
      (build_page_at cfg inp pageIdx).assign cfg.up_key_idx = some ("▲", "", "W") ∧
      (build_page_at cfg inp pageIdx).assign cfg.down_key_idx = some ("▼", "", "W")) ∧
    ((build_page_at cfg inp pageIdx).k2g cfg.load_key_idx = none ∧
      (build_page_at cfg inp pageIdx).k2g cfg.up_key_idx = none ∧
      (build_page_at cfg inp pageIdx).k2g cfg.down_key_idx = none) ∧
    PrevWF cfg (build_page_at cfg inp pageIdx).g2k ∧
    (∀ g k, isInplaceSticky inp.record_toggle_states g = true →
      g < inp.items.length → inp.prevG2K g = some k →
      (build_page_at cfg inp pageIdx).g2k g = some k) := by
  have hst3 := placeNormal_eq (stateAfterLayout cfg inp)
    (pyEnum 0 (paginationSlots cfg inp)) (normalItems inp)
    (pageIdx * (paginationSlots cfg inp).length)
  obtain ⟨hinv, hret⟩ :=
    stage3 cfg inp (pageIdx * (paginationSlots cfg inp).length) hprev
  have hk2g : (build_page_at cfg inp pageIdx).k2g =
      (placeList (stateAfterLayout cfg inp)
        (normalPlacements cfg inp (pageIdx * (paginationSlots cfg inp).length))).k2g :=
    congrArg PageState.k2g hst3
  have hg2k : (build_page_at cfg inp pageIdx).g2k =
      (placeList (stateAfterLayout cfg inp)
        (normalPlacements cfg inp (pageIdx * (paginationSlots cfg inp).length))).g2k :=
    congrArg PageState.g2k hst3
  have hassign : (build_page_at cfg inp pageIdx).assign =
      Function.update (Function.update (Function.update
          (placeList (stateAfterLayout cfg inp)
            (normalPlacements cfg inp
              (pageIdx * (paginationSlots cfg inp).length))).assign
          cfg.load_key_idx (some ("LOAD", "", "W")))
        cfg.up_key_idx (some ("▲", "", "W")))
      cfg.down_key_idx (some ("▼", "", "W")) := by
    show Function.update (Function.update (Function.update
        (placeNormal (stateAfterLayout cfg inp) (pyEnum 0 (paginationSlots cfg inp))
          (normalItems inp) (pageIdx * (paginationSlots cfg inp).length)).assign
        cfg.load_key_idx (some ("LOAD", "", "W")))
      cfg.up_key_idx (some ("▲", "", "W"))) cfg.down_key_idx (some ("▼", "", "W")) = _
    rw [hst3]
    rfl
  have hnone : ∀ k, isFixedKey cfg k →
      (build_page_at cfg inp pageIdx).k2g k = none := by
    intro k hfix
    rw [hk2g]
    cases hv : (placeList (stateAfterLayout cfg inp)
        (normalPlacements cfg inp (pageIdx * (paginationSlots cfg inp).length))).k2g k with
    | none => rfl
    | some g =>
      have h1 := (hinv.mutual_inv k g).mp hv
      exact absurd hfix (hinv.key_range g k h1).2
  refine ⟨?_, ⟨?_, ?_, ?_⟩, ⟨?_, ?_, ?_⟩, ⟨?_, ?_⟩, ?_⟩
  · intro k g
    rw [hk2g, hg2k]
    exact hinv.mutual_inv k g
  · rw [hassign, Function.update_noteq hcfg.2.1, Function.update_noteq hcfg.1,
      Function.update_same]
  · rw [hassign, Function.update_noteq hcfg.2.2, Function.update_same]
  · rw [hassign, Function.update_same]
  · exact hnone cfg.load_key_idx (Or.inl rfl)
  · exact hnone cfg.up_key_idx (Or.inr (Or.inl rfl))
  · exact hnone cfg.down_key_idx (Or.inr (Or.inr rfl))
  · intro g k h
    rw [hg2k] at h
    exact hinv.key_range g k h
  · intro g1 g2 k h1 h2
    rw [hg2k] at h1 h2
    have e1 := (hinv.mutual_inv k g1).mpr h1
    have e2 := (hinv.mutual_inv k g2).mpr h2
    rw [e1] at e2
    exact Option.some.inj e2
  · intro g k hsticky hlen hprevg
    have hget : inp.items.get? g = some (inp.items.get ⟨g, hlen⟩) :=
      List.get?_eq_get hlen
    have henum : (g, inp.items.get ⟨g, hlen⟩) ∈ pyEnum 0 inp.items :=
      pyEnum_mem.mpr ⟨g, hget, by omega⟩
    have hinp : (g, inp.items.get ⟨g, hlen⟩) ∈ inplaceItems inp :=
      List.mem_filter.mpr ⟨henum, hsticky⟩
    have hp : (k, g, inp.items.get ⟨g, hlen⟩) ∈ inplacePlacements inp :=
      mem_inplacePlacements.mpr ⟨hinp, hprevg⟩
    rw [hg2k]
    exact hret (k, g, inp.items.get ⟨g, hlen⟩) hp

/-- C1: for every button list, well-formed previous layout mapping and
deck geometry with distinct fixed keys, `build_page` (a) produces
mutually inverse key/item maps — so no slot carries two logical buttons
and no logical button sits on two slots; (b) always assigns the three
fixed control slots their LOAD / up-arrow / down-arrow controls and never
a logical button; (c) produces a well-formed mapping again (so the
hypothesis is an invariant of repeated rebuilds); and (d) keeps an
in-place-sticky button (RECORDING/ERROR state) on its previously recorded
slot, including across a second rebuild with no intervening state
change. -/
theorem build_page_layout_invariants (cfg : LayoutCfg) (inp : LayoutIn) (P : Int)
    (hcfg : CfgWF cfg) (hprev : PrevWF cfg inp.prevG2K) :
    (∀ k g, (build_page cfg inp P).k2g k = some g ↔
      (build_page cfg inp P).g2k g = some k) ∧
    ((build_page cfg inp P).assign cfg.load_key_idx = some ("LOAD", "", "W") ∧
      (build_page cfg inp P).assign cfg.up_key_idx = some ("▲", "", "W") ∧
      (build_page cfg inp P).assign cfg.down_key_idx = some ("▼", "", "W")) ∧
    ((build_page cfg inp P).k2g cfg.load_key_idx = none ∧
      (build_page cfg inp P).k2g cfg.up_key_idx = none ∧
      (build_page cfg inp P).k2g cfg.down_key_idx = none) ∧
    PrevWF cfg (build_page cfg inp P).g2k ∧
    (∀ g k, isInplaceSticky inp.record_toggle_states g = true →
      g < inp.items.length → inp.prevG2K g = some k →
      (build_page cfg inp P).g2k g = some k) ∧
    (∀ g k (P' : Int), isInplaceSticky inp.record_toggle_states g = true →
      g < inp.items.length → inp.prevG2K g = some k →
      (build_page cfg { inp with prevG2K := (build_page cfg inp P).g2k } P').g2k g =
        some k) := by
  obtain ⟨c1, c2, c3, c4, c5⟩ :=
    build_page_at_core cfg inp ((P.emod (total_pages cfg inp)).toNat) hcfg hprev
  refine ⟨c1, c2, c3, c4, c5, ?_⟩
  intro g k P' hsticky hlen hprevg
  have hres : (build_page cfg inp P).g2k g = some k := c5 g k hsticky hlen hprevg
  set inp' : LayoutIn := { inp with prevG2K := (build_page cfg inp P).g2k } with hinp'
  obtain ⟨-, -, -, -, c5'⟩ :=
    build_page_at_core cfg inp'
      ((P'.emod (total_pages cfg inp')).toNat) hcfg c4
  exact c5' g k hsticky hlen hres

/-- Witness for C1 at the concrete deck and state of `witnessIn`
(button 3 is RECORDING with previous slot 7). -/
theorem build_page_layout_invariants_witness :
    CfgWF witnessCfg ∧ PrevWF witnessCfg witnessIn.prevG2K ∧
    ((∀ k g, (build_page witnessCfg witnessIn 0).k2g k = some g ↔
        (build_page witnessCfg witnessIn 0).g2k g = some k) ∧
      ((build_page witnessCfg witnessIn 0).assign witnessCfg.load_key_idx =
          some ("LOAD", "", "W") ∧
        (build_page witnessCfg witnessIn 0).assign witnessCfg.up_key_idx =
          some ("▲", "", "W") ∧
        (build_page witnessCfg witnessIn 0).assign witnessCfg.down_key_idx =
          some ("▼", "", "W")) ∧
      ((build_page witnessCfg witnessIn 0).k2g witnessCfg.load_key_idx = none ∧
        (build_page witnessCfg witnessIn 0).k2g witnessCfg.up_key_idx = none ∧
        (build_page witnessCfg witnessIn 0).k2g witnessCfg.down_key_idx = none) ∧
      PrevWF witnessCfg (build_page witnessCfg witnessIn 0).g2k ∧
      (∀ g k, isInplaceSticky witnessIn.record_toggle_states g = true →
        g < witnessIn.items.length → witnessIn.prevG2K g = some k →
        (build_page witnessCfg witnessIn 0).g2k g = some k) ∧
      (∀ g k (P' : Int), isInplaceSticky witnessIn.record_toggle_states g = true →
        g < witnessIn.items.length → witnessIn.prevG2K g = some k →
        (build_page witnessCfg
            { witnessIn with prevG2K := (build_page witnessCfg witnessIn 0).g2k }
            P').g2k g = some k)) := by
  have hcfg : CfgWF witnessCfg := by
    refine ⟨?_, ?_, ?_⟩ <;> decide
  have hprev : PrevWF witnessCfg witnessIn.prevG2K := by
    constructor
    · intro g k h
      have h' : (if g = 3 then some 7 else none) = some k := h
      by_cases hg : g = 3
      · rw [if_pos hg] at h'
        cases Option.some.inj h'
        exact ⟨by decide, by decide⟩
      · rw [if_neg hg] at h'
        exact absurd h' (by simp)
    · intro g1 g2 k h1 h2
      have h1' : (if g1 = 3 then some 7 else none) = some k := h1
      have h2' : (if g2 = 3 then some 7 else none) = some k := h2
      by_cases hg1 : g1 = 3
      · by_cases hg2 : g2 = 3
        · rw [hg1, hg2]
        · rw [if_neg hg2] at h2'
          exact absurd h2' (by simp)
      · rw [if_neg hg1] at h1'
        exact absurd h1' (by simp)
  exact ⟨hcfg, hprev, build_page_layout_invariants witnessCfg witnessIn 0 hcfg hprev⟩

/-! ## Monitor supervisor (`monitor_ssh`, `monitor_window_snapshot`)

Each polling loop is embedded as a deterministic step function over the
values the thread reads from the shared environment at its check points:
the `global_idx in monitor_threads` membership, the authoritative
`monitor_generations` entry at each of the loop's reads, and the external
observation result (`none` models an exception). -/

/-- What one iteration of a monitor loop did. -/
structure MonIterOut where
  status : Option String
  write : Option String
  genCleared : Bool
  sleeps : Nat
  observed : Bool
  exited : Bool
deriving Repr, DecidableEq

/-- Environment reads of one `monitor_ssh` iteration: membership and
generation at the `while` head, the immediate re-check, the health-check
result (`some rc`, or `none` for an exception), and the generation read
before publishing. -/
structure SshEnv where
  inThreads : Bool
  genHead : Option Nat
  genPre : Option Nat
  obs : Option Int
  genPost : Option Nat
deriving Repr, DecidableEq

/-- `new_state`: `connected` on zero exit, else the initial `BROKEN`
(exceptions leave it `BROKEN`). -/
def sshNewState (obs : Option Int) : String :=
  match obs with
  | some 0 => "connected"
  | _ => "BROKEN"

/-- One iteration of `monitor_ssh` for token `generation_id = g`,
given the current published status for this index. -/
def monitor_ssh_iter (g : Nat) (status : Option String) (e : SshEnv) : MonIterOut :=
  if ¬ (e.inThreads = true ∧ e.genHead = some g) then
    ⟨status, none, false, 0, false, true⟩
  else if e.genPre ≠ some g then ⟨status, none, false, 0, false, true⟩
  else
    let ns := sshNewState e.obs
    if e.genPost = some g then
      if status ≠ some ns then ⟨some ns, some ns, false, 1, true, false⟩
      else ⟨status, none, false, 1, true, false⟩
    else ⟨status, none, false, 1, true, true⟩

/-- The whole `monitor_ssh` loop over a finite trace of iteration
environments, collecting status writes and counting sleeps. -/
def monitor_ssh_run (g : Nat) (status : Option String) :
    List SshEnv → List String × Nat
  | [] => ([], 0)
  | e :: rest =>
    let o := monitor_ssh_iter g status e
    if o.exited then (o.write.toList, o.sleeps)
    else
      let (ws, sls) := monitor_ssh_run g o.status rest
      (o.write.toList ++ ws, o.sleeps + sls)

/-- Environment reads of one `monitor_window_snapshot` iteration: the
loop-head membership and generation, the post-sleep re-check, the
window-content grab (`none` = exception during the context switch), the
authoritative generation while the grab runs, and the post-grab check. -/
structure SnapEnv where
  inThreads : Bool
  genHead : Option Nat
  genPost : Option Nat
  obs : Option String
  genAtObs : Option Nat
  genFinal : Option Nat
deriving Repr, DecidableEq

/-- One iteration of `monitor_window_snapshot` for token `g`, with the
baseline snapshot length and the watched keyword. -/
def monitor_window_snapshot_iter (g : Nat) (snapshotLen : Nat) (keyword : String)
    (e : SnapEnv) : MonIterOut :=
  if ¬ (e.inThreads = true ∧ e.genHead = some g) then
    ⟨none, none, false, 0, false, true⟩
  else if e.genPost ≠ some g then ⟨none, none, false, 1, false, true⟩
  else
    match e.obs with
    | none =>
      -- exception during the focus-switch/grab: publishes OSA_ERROR and
      -- clears the generation with no token re-check after the grab
      ⟨none, some "OSA_ERROR", true, 1, true, true⟩
    | some content =>
      if e.genFinal ≠ some g then ⟨none, none, false, 1, true, true⟩
      else if content = "WINDOW_GONE" then ⟨none, some "OSA_GONE", true, 1, true, true⟩
      else if snapshotLen < content.data.length ∧
          containsSeq (pyLower keyword.data) (pyLower (content.data.drop snapshotLen)) then
        ⟨none, some "OSA_FOUND", true, 1, true, true⟩
      else ⟨none, none, false, 1, true, false⟩

/-- C3 counterexample: a snapshot-monitor iteration whose observation
raises after the token was cleared mid-observation still publishes
OSA_ERROR (and clears the generation) — a status write after
invalidation, with no re-check between the observation and the publish. -/
theorem monitor_snapshot_stale_write_counterexample :
    (monitor_window_snapshot_iter 1 0 "ok"
        ⟨true, some 1, some 1, none, none, none⟩).write = some "OSA_ERROR" ∧
    (monitor_window_snapshot_iter 1 0 "ok"
        ⟨true, some 1, some 1, none, none, none⟩).genCleared = true ∧
    (⟨true, some 1, some 1, none, none, none⟩ : SnapEnv).genAtObs ≠ some 1 ∧
    (⟨true, some 1, some 1, none, none, none⟩ : SnapEnv).genFinal ≠ some 1 := by
  refine ⟨rfl, rfl, by simp, by simp⟩

/-- C3 (amended): generation-token cancellation as the code actually
guarantees it.  (1) A fully invalidated SSH trace writes nothing and never
sleeps again; (2) invalidation seen at the pre-publish check ends the SSH
loop within the current iteration — at most one more poll sleep — with no
write; (3) every SSH write/observation is preceded by token re-checks
that read `g`; (4) the snapshot loop likewise stops with no write after
at most one sleep once a head or post-sleep check misses; (5) on every
non-exception path a snapshot write requires all three checks to have
read `g` — the observation-exception path is the exception, per the
counterexample. -/
theorem monitor_generation_cancellation (g : Nat) :
    (∀ (status : Option String) (envs : List SshEnv),
      (∀ e ∈ envs, e.genHead ≠ some g) →
      monitor_ssh_run g status envs = ([], 0)) ∧
    (∀ (status : Option String) (e : SshEnv), e.genPost ≠ some g →
      (monitor_ssh_iter g status e).write = none ∧
      (monitor_ssh_iter g status e).exited = true ∧
      (monitor_ssh_iter g status e).sleeps ≤ 1) ∧
    (∀ (status : Option String) (e : SshEnv),
      ((monitor_ssh_iter g status e).write ≠ none →
        e.inThreads = true ∧ e.genHead = some g ∧ e.genPre = some g ∧
          e.genPost = some g) ∧
      ((monitor_ssh_iter g status e).observed = true →
        e.inThreads = true ∧ e.genHead = some g ∧ e.genPre = some g)) ∧
    (∀ (sl : Nat) (kw : String) (e : SnapEnv),
      (e.genHead ≠ some g →
        (monitor_window_snapshot_iter g sl kw e).write = none ∧
        (monitor_window_snapshot_iter g sl kw e).exited = true ∧
        (monitor_window_snapshot_iter g sl kw e).sleeps = 0) ∧
      (e.genPost ≠ some g →
        (monitor_window_snapshot_iter g sl kw e).write = none ∧
        (monitor_window_snapshot_iter g sl kw e).exited = true ∧
        (monitor_window_snapshot_iter g sl kw e).sleeps ≤ 1)) ∧
    (∀ (sl : Nat) (kw : String) (e : SnapEnv), e.obs ≠ none →
      ((monitor_window_snapshot_iter g sl kw e).write ≠ none →
        e.inThreads = true ∧ e.genHead = some g ∧ e.genPost = some g ∧
          e.genFinal = some g) ∧
      ((monitor_window_snapshot_iter g sl kw e).observed = true →
        e.inThreads = true ∧ e.genHead = some g ∧ e.genPost = some g)) := by
  refine ⟨?_, ?_, ?_, ?_, ?_⟩
  · intro status envs h
    cases envs with
    | nil => rfl
    | cons e rest =>
      have hh := h e (by simp)
      have hiter : monitor_ssh_iter g status e = ⟨status, none, false, 0, false, true⟩ := by
        unfold monitor_ssh_iter
        rw [if_pos (fun hc => hh hc.2)]
      simp only [monitor_ssh_run, hiter]
      rfl
  · intro status e hpost
    unfold monitor_ssh_iter
    by_cases h1 : ¬ (e.inThreads = true ∧ e.genHead = some g)
    · rw [if_pos h1]
      exact ⟨rfl, rfl, by dsimp only; omega⟩
    · rw [if_neg h1]
      by_cases h2 : e.genPre ≠ some g
      · rw [if_pos h2]
        exact ⟨rfl, rfl, by dsimp only; omega⟩
      · rw [if_neg h2, if_neg hpost]
        exact ⟨rfl, rfl, by dsimp only; omega⟩
  · intro status e
    unfold monitor_ssh_iter
    by_cases h1 : ¬ (e.inThreads = true ∧ e.genHead = some g)
    · rw [if_pos h1]
      exact ⟨fun hw => absurd rfl hw, fun ho => absurd ho (by simp)⟩
    · rw [if_neg h1]
      rw [not_not] at h1
      by_cases h2 : e.genPre ≠ some g
      · rw [if_pos h2]
        exact ⟨fun hw => absurd rfl hw, fun ho => absurd ho (by simp)⟩
      · have h2' : e.genPre = some g := not_not.mp h2
        rw [if_neg h2]
        by_cases h3 : e.genPost = some g
        · rw [if_pos h3]
          by_cases h4 : status ≠ some (sshNewState e.obs)
          · rw [if_pos h4]
            exact ⟨fun _ => ⟨h1.1, h1.2, h2', h3⟩, fun _ => ⟨h1.1, h1.2, h2'⟩⟩
          · rw [if_neg h4]
            exact ⟨fun hw => absurd rfl hw, fun _ => ⟨h1.1, h1.2, h2'⟩⟩
        · rw [if_neg h3]
          exact ⟨fun hw => absurd rfl hw, fun _ => ⟨h1.1, h1.2, h2'⟩⟩
  · intro sl kw e
    constructor
    · intro hh
      unfold monitor_window_snapshot_iter
      rw [if_pos (fun hc => hh hc.2)]
      exact ⟨rfl, rfl, rfl⟩
    · intro hpost
      unfold monitor_window_snapshot_iter
      by_cases h1 : ¬ (e.inThreads = true ∧ e.genHead = some g)
      · rw [if_pos h1]
        exact ⟨rfl, rfl, by decide⟩
      · rw [if_neg h1, if_pos hpost]
        exact ⟨rfl, rfl, by decide⟩
  · intro sl kw e hobs
    unfold monitor_window_snapshot_iter
    by_cases h1 : ¬ (e.inThreads = true ∧ e.genHead = some g)
    · rw [if_pos h1]
      exact ⟨fun hw => absurd rfl hw, fun ho => absurd ho (by simp)⟩
    · rw [if_neg h1]
      rw [not_not] at h1
      by_cases h2 : e.genPost ≠ some g
      · rw [if_pos h2]
        exact ⟨fun hw => absurd rfl hw, fun ho => absurd ho (by simp)⟩
      · rw [if_neg h2]
        cases hc : e.obs with
        | none => exact absurd hc hobs
        | some content =>
          dsimp only
          by_cases h3 : e.genFinal ≠ some g
          · rw [if_pos h3]
            exact ⟨fun hw => absurd rfl hw, fun _ => ⟨h1.1, h1.2, not_not.mp h2⟩⟩
          · rw [if_neg h3]
            by_cases h4 : content = "WINDOW_GONE"
            · rw [if_pos h4]
              exact ⟨fun _ => ⟨h1.1, h1.2, not_not.mp h2, not_not.mp h3⟩,
                fun _ => ⟨h1.1, h1.2, not_not.mp h2⟩⟩
            · rw [if_neg h4]
              by_cases h5 : sl < content.data.length ∧
                  containsSeq (pyLower kw.data) (pyLower (content.data.drop sl))
              · rw [if_pos h5]
                exact ⟨fun _ => ⟨h1.1, h1.2, not_not.mp h2, not_not.mp h3⟩,
                  fun _ => ⟨h1.1, h1.2, not_not.mp h2⟩⟩
              · rw [if_neg h5]
                exact ⟨fun hw => absurd rfl hw, fun _ => ⟨h1.1, h1.2, not_not.mp h2⟩⟩

/-- Witness for the amended C3 theorem at concrete traces. -/
theorem monitor_generation_cancellation_witness :
    ((⟨true, some 2, some 1, some 0, some 1⟩ : SshEnv).genHead ≠ some 1) ∧
    ((⟨true, some 1, some 1, some 0, none⟩ : SshEnv).genPost ≠ some 1) ∧
    ((⟨true, some 1, some 1, some "x", some 1, some 1⟩ : SnapEnv).obs ≠ none) ∧
    monitor_ssh_run 1 none [⟨true, some 2, some 1, some 0, some 1⟩] = ([], 0) ∧
    (monitor_ssh_iter 1 none ⟨true, some 1, some 1, some 0, none⟩).write = none ∧
    ((monitor_window_snapshot_iter 1 0 "x"
        ⟨true, some 1, some 1, some "x", some 1, some 1⟩).write ≠ none →
      (⟨true, some 1, some 1, some "x", some 1, some 1⟩ : SnapEnv).genFinal = some 1) := by
  have h := monitor_generation_cancellation 1
  refine ⟨by simp, by simp, by simp, ?_, ?_, ?_⟩
  · exact h.1 none [⟨true, some 2, some 1, some 0, some 1⟩]
      (by intro e he; simp at he; rw [he]; simp)
  · exact (h.2.1 none ⟨true, some 1, some 1, some 0, none⟩ (by simp)).1
  · intro hw
    exact ((h.2.2.2.2 0 "x" ⟨true, some 1, some 1, some "x", some 1, some 1⟩
      (by simp)).1 hw).2.2.2

/-! ## Button state machine (`callback`, key-release path)

The release handler is embedded as a pure function from the driver's
global state, the key index, and an oracle of external results (press
duration, dialog answers, confirmation, terminal output, spawn results)
to the new state plus the ordered list of externally visible effects.
Python float arithmetic/formatting in the numeric-adjust branch and the
`SSH_USER_HOST_CMD_PATTERN` string surgery of
`_transform_ssh_user_for_mobile` are supplied through oracle inputs, as
floating point and that regex are outside the embedded core; no claim
below depends on them. -/

/-- `record_toggle_states[g]`: `{"state": ..., "window_title": ...}`. -/
structure RecInfo where
  state : String
  window_title : Option String
deriving Repr, DecidableEq

/-- The `numeric_var` session dictionary. -/
structure NumericVar where
  name : String
  valueStr : String
  stepStr : String
  cmd_template : String
  key : Nat
  force_local : Bool
  is_mobile_ssh : Bool
  is_background : Bool
deriving Repr, DecidableEq

/-- Python dict assignment on the insertion-ordered session map. -/
def setVar (vs : Vars) (name val : String) : Vars :=
  if (vs.lookup name).isSome then
    vs.map (fun nv => if nv.1 = name then (name, val) else nv)
  else vs ++ [(name, val)]

/-- `re.match(r"^(ssh\s+\S+)", s)`: the leading `ssh`, whitespace, and
one token. -/
def sshBaseMatch (s : List Char) : Option (List Char) :=
  match s with
  | 's' :: 's' :: 'h' :: rest =>
    let ws := rest.takeWhile pyWs
    if ws = [] then none
    else
      let tok := (rest.drop ws.length).takeWhile (fun c => !(pyWs c))
      if tok = [] then none
      else some ('s' :: 's' :: 'h' :: (ws ++ tok))
  | _ => none

/-- Index of the first occurrence of `pat` in `s`. -/
def firstOccurAux (pat : List Char) : List Char → Option Nat
  | [] => if pat = [] then some 0 else none
  | c :: rest =>
    if pat.isPrefixOf (c :: rest) then some 0
    else (firstOccurAux pat rest).map (· + 1)

/-- `result_str.split("::::", 1)`: split at the first `::::`. -/
def splitFirstMark (s : List Char) : Option (List Char × List Char) :=
  (firstOccurAux "::::".data s).map (fun i => (s.take i, s.drop (i + 4)))

/-- `re.search(r"(Will capture.*?Session start status: 0)", out, re.DOTALL)`:
the segment from the first `Will capture` to the first later
`Session start status: 0` (inclusive), if any. -/
def recStartSegment (s : List Char) : Option (List Char) :=
  match firstOccurAux "Will capture".data s with
  | none => none
  | some i =>
    let afterStart := (s.drop i).drop "Will capture".data.length
    match firstOccurAux "Session start status: 0".data afterStart with
    | none => none
    | some j =>
      some ((s.drop i).take
        ("Will capture".data.length + j + "Session start status: 0".data.length))

/-- `error_keywords` from the record-stop branch. -/
def error_keywords : List String :=
  ["failed", "bad output", "MovieSamplerCheckMovie failed", "-12848"]

/-- `line.lower()` contains `kw.lower()`. -/
def lineHasKeyword (kw : String) (line : List Char) : Bool :=
  containsSeq (pyLower kw.data) (pyLower line)

/-- Python `str.split('\n')`. -/
def splitLines (s : List Char) : List (List Char) :=
  List.splitOn '\n' s

/-- `terminal_output.split('\n')[-15:]`: the last 15 lines. -/
def last15Lines (s : List Char) : List (List Char) :=
  (splitLines s).drop ((splitLines s).length - 15)

/-- The first of the last 15 lines matching an error keyword, if any
(the record-stop branch logs that line and stops at it). -/
def firstErrorLine (out : Option String) : Option (List Char) :=
  match out with
  | none => none
  | some o => (last15Lines o.data).find? (fun line =>
      error_keywords.any (fun kw => lineHasKeyword kw line))

/-- TAKE increment on stop: `str(int(take) + 1)`, resetting to `"1"` when
the stored value is not numeric. -/
def takeIncrement (takeVal : String) : String :=
  match pyInt takeVal.data with
  | some n => toString (n + 1)
  | none => "1"

/-- Externally visible actions of one key-release callback. -/
inductive Effect where
  | runInTerminal (cmd : String) (actAtLbl : Option String) (forceLocal : Bool)
  | runAtActivation (cmd : String) (hasN : Bool) (forceNewWin : Bool) (forceLocal : Bool)
  | runStagedMobile (sshStaged : String) (nStaged : String) (windowTitle : String)
  | spawnSnapshotLocal (cmd : String)
  | spawnSnapshotSsh (ssh : String) (cmd : String)
  | popenBackground (cmd : String)
  | terminateBackground (g : Nat)
  | sendKeystroke (window : String) (key : String)
  | logRecpath (path : String) (tag : String) (content : String)
  | buildPage (idx : Int)
  | redrawEff
  | loadData
  | openWebUI
  | startSnapshotMonitor (g : Nat) (windowId : Nat)
deriving Repr, DecidableEq

/-- The driver globals read and written by `callback`. -/
structure CallbackState where
  page_index : Int
  numeric_mode : Bool
  long_press_numeric_active : Bool
  numeric_var : Option NumericVar
  active_device_key : Option Nat
  toggle_keys : List Nat
  current_session_vars : Vars
  record_toggle_states : Nat → Option RecInfo
  at_devices_to_reinit_cmd : List Nat
  background_running : Nat → Bool
  monitor_states : Nat → Option String
  monitor_generations : Nat → Option Nat
  monitor_threads_has : Nat → Bool
  numeric_step_memory : Nat → Option String
  items : List Item
  labels : Nat → Option String
  cmds : Nat → Option String
  flags : Nat → Option String
  key_to_global_item_idx_map : Nat → Option Nat

/-- External results consumed during one release: press duration class,
the confirmation dialog, terminal output reads, the input-dialog answer
stream, the numeric-adjust float result and float-parse success (Python
float semantics, out of the embedded core), the snapshot-spawn result,
`time.time()`, and the mobile SSH user rewrite. -/
structure CallbackExt where
  lp : Bool
  confirmAnswer : Bool
  terminalOutput : Option String
  dialogAnswers : List (Option String)
  floatAdjustStr : String
  floatParseOk : Bool
  spawnResult : Option String
  timeNow : Nat
  mobileTransform : String → String

def itemDefault : Item := ⟨0, "", "", "", ""⟩

def toggleAdd (l : List Nat) (k : Nat) : List Nat := if k ∈ l then l else k :: l

def toggleDiscard (l : List Nat) (k : Nat) : List Nat := l.filter (fun x => x ≠ k)

/-- `cmd.lower().strip().startswith("ssh ")`. -/
def startsSsh (cmd : String) : Bool :=
  "ssh ".data.isPrefixOf (pyStrip (pyLower cmd.data))

/-- `keyword[:-2] if keyword.endswith(".0") else keyword`. -/
def stripDot0 (s : String) : String :=
  if ['0', '.'].isPrefixOf s.data.reverse then ⟨(s.data.reverse.drop 2).reverse⟩ else s

def allDigits (l : List Char) : Bool := !l.isEmpty && l.all Char.isDigit

/-- The record long-press edit loop: prompt for each non-TAKE template
variable, aborting on a cancelled/timed-out/error answer, storing
changed values.  Returns (vars, remaining answers, aborted). -/
def recordEditFold (answers : List (Option String)) (vars : Vars) :
    List (List Char × Option (List Char)) → Vars × List (Option String) × Bool
  | [] => (vars, answers, false)
  | (name, dflt) :: rest =>
    let varName : String := ⟨pyStrip name⟩
    let currentVal : String := (vars.lookup varName).getD ⟨dflt.getD []⟩
    match answers.headD none with
    | none => (vars, answers.tail, true)
    | some input =>
      if input = "USER_CANCELLED_PROMPT" ∨ input = "USER_TIMEOUT_PROMPT" then
        (vars, answers.tail, true)
      else
        recordEditFold answers.tail
          (if input ≠ currentVal then setVar vars varName input else vars) rest

/-- The `V` long-press edit loop: prompt for each template variable,
skipping empty/cancelled/timed-out/error answers, applying only changed
values.  Returns (vars, remaining answers, any change applied). -/
def vEditFold (answers : List (Option String)) (vars : Vars) (chg : Bool) :
    List (List Char × Option (List Char)) → Vars × List (Option String) × Bool
  | [] => (vars, answers, chg)
  | (name, dflt) :: rest =>
    let varName : String := ⟨pyStrip name⟩
    let cv : String := (vars.lookup varName).getD ⟨dflt.getD []⟩
    match answers.headD none with
    | none => vEditFold answers.tail vars chg rest
    | some input =>
      if input ≠ "" ∧ input ≠ "USER_CANCELLED_PROMPT" ∧
          input ≠ "USER_TIMEOUT_PROMPT" ∧ input ≠ cv then
        vEditFold answers.tail (setVar vars varName input) true rest
      else vEditFold answers.tail vars chg rest

/-- `re.search(r'\{\{TAKE:([^}]+)\}\}', cmd, re.IGNORECASE)`: the first
explicit TAKE default in a template. -/
def parseTakeDefaultAt (s : List Char) : Option (List Char) :=
  if ['{', '{'].isPrefixOf s then
    match matchCI ['T', 'A', 'K', 'E'] (s.drop 2) with
    | some r0 =>
      match r0 with
      | ':' :: r1 =>
        let d := r1.takeWhile (fun c => !(c == '}'))
        if d = [] then none
        else
          match expectClose (r1.drop d.length) with
          | some _ => some d
          | none => none
      | _ => none
    | none => none
  else none

def findTakeDefault : List Char → Option (List Char)
  | [] => none
  | c :: rest =>
    match parseTakeDefaultAt (c :: rest) with
    | some d => some d
    | none => findTakeDefault rest

/-- The record-flag branch of `callback` (short press drives the
OFF/RECORDING/ERROR record state machine; long press opens the variable
edit prompts).  `st` already reflects the `res_cmd` resolution. -/
def record_branch (st : CallbackState) (ext : CallbackExt) (g : Nat)
    (item_data : Item) : CallbackState × List Effect :=
  let rr := resolve_command_string "{{RECPATH}}" st.current_session_vars
  let st0 := { st with current_session_vars := rr.2 }
  let recpath : Option String :=
    if rr.1 = "" ∨ rr.1 = "{{RECPATH}}" then none else some rr.1
  let state_info := (st0.record_toggle_states g).getD ⟨"OFF", none⟩
  let current_state := state_info.state
  if ext.lp then
    if current_state = "RECORDING" then (st0, [])
    else
      let originalScene : String := (st0.current_session_vars.lookup "SCENE").getD ""
      let toEdit := ((findVarMatches item_data.command.data).filter
        (fun m => pyUpper m.2.1 ≠ "TAKE".data)).map (fun m => (m.2.1, m.2.2))
      let fold := recordEditFold ext.dialogAnswers st0.current_session_vars toEdit
      if fold.2.2 then
        ({ st0 with current_session_vars := fold.1 }, [Effect.buildPage st0.page_index])
      else
        let st1 := { st0 with current_session_vars := fold.1 }
        let newScene : String := (st1.current_session_vars.lookup "SCENE").getD ""
        let scene_changed := originalScene ≠ newScene
        let default_take : String :=
          match findTakeDefault item_data.command.data with
          | some d => if allDigits d then ⟨d⟩ else "1"
          | none => "1"
        let _suggested : String :=
          if scene_changed then default_take
          else (st1.current_session_vars.lookup "TAKE").getD default_take
        let takeAns := fold.2.1.headD none
        let st2 :=
          match takeAns with
          | some input =>
            if input ≠ "" ∧ input ≠ "USER_CANCELLED_PROMPT" ∧
                input ≠ "USER_TIMEOUT_PROMPT" then
              { st1 with current_session_vars := setVar st1.current_session_vars "TAKE" input }
            else st1
          | none => st1
        (st2, [Effect.buildPage st2.page_index])
  else if current_state = "ERROR" then
    ({ st0 with record_toggle_states := Function.update st0.record_toggle_states g none },
      [Effect.buildPage st0.page_index])
  else if current_state = "OFF" then
    match st0.active_device_key with
    | none =>
      ({ st0 with record_toggle_states :=
          Function.update st0.record_toggle_states g (some ⟨"ERROR", none⟩) },
        [Effect.buildPage st0.page_index])
    | some ak =>
      let r1 := resolve_command_string ((st0.cmds ak).getD "") st0.current_session_vars
      let atFd := parse_flags ((st0.flags ak).getD "")
      let r2 := resolve_command_string item_data.command r1.2
      let final_command := r2.1
      let st1 := { st0 with current_session_vars := r2.2 }
      let target_title : Option String :=
        if atFd.mobile_ssh then st1.labels ak
        else some (item_data.label ++ "-REC")
      let spawnEff : Effect :=
        if atFd.mobile_ssh then
          Effect.runInTerminal final_command (st1.labels ak) false
        else
          Effect.runStagedMobile (ext.mobileTransform r1.1) final_command
            (item_data.label ++ "-REC")
      let logEffs : List Effect :=
        match recpath with
        | none => []
        | some rp =>
          match ext.terminalOutput with
          | some out =>
            if out ≠ "" then
              match recStartSegment out.data with
              | some seg => [Effect.logRecpath rp "START_OUTPUT" ⟨pyStrip seg⟩]
              | none => [Effect.logRecpath rp "CMD" final_command]
            else [Effect.logRecpath rp "CMD" final_command]
          | none => [Effect.logRecpath rp "CMD" final_command]
      ({ st1 with record_toggle_states :=
          Function.update st1.record_toggle_states g (some ⟨"RECORDING", target_title⟩) },
        spawnEff :: logEffs ++ [Effect.buildPage st1.page_index])
  else if current_state = "RECORDING" then
    match state_info.window_title with
    | none =>
      ({ st0 with record_toggle_states :=
          Function.update st0.record_toggle_states g (some ⟨"ERROR", none⟩) },
        [Effect.buildPage st0.page_index])
    | some w =>
      match firstErrorLine ext.terminalOutput with
      | some line =>
        let logEffs : List Effect :=
          match recpath with
          | some rp => [Effect.logRecpath rp "ERR" ⟨pyStrip line⟩]
          | none => []
        ({ st0 with record_toggle_states :=
            Function.update st0.record_toggle_states g (some ⟨"ERROR", none⟩) },
          Effect.sendKeystroke w "\\r" :: logEffs ++ [Effect.buildPage st0.page_index])
      | none =>
        ({ st0 with
            current_session_vars := setVar st0.current_session_vars "TAKE"
              (takeIncrement ((st0.current_session_vars.lookup "TAKE").getD "1")),
            record_toggle_states := Function.update st0.record_toggle_states g none },
          [Effect.sendKeystroke w "\\r", Effect.buildPage st0.page_index])
  else (st0, [])

/-- The `?` OSA-monitor branch of `callback` (short press). -/
def osa_branch (st : CallbackState) (ext : CallbackExt) (g : Nat)
    (item_data : Item) : CallbackState × List Effect :=
  let mon := st.monitor_states g
  if mon = some "OSA_MONITORING" ∨ mon = some "OSA_FOUND" then
    ({ st with
        monitor_generations := Function.update st.monitor_generations g none,
        monitor_states := Function.update st.monitor_states g none },
      [Effect.redrawEff])
  else
    let st0 :=
      if st.monitor_threads_has g ∧ st.monitor_generations g ≠ none then
        { st with monitor_generations := Function.update st.monitor_generations g none }
      else st
    let keyword := stripDot0 item_data.monitor_keyword
    if keyword = "" then
      ({ st0 with monitor_states := Function.update st0.monitor_states g (some "OSA_ERROR") },
        [Effect.redrawEff])
    else
      let r1 := resolve_command_string item_data.command st0.current_session_vars
      let st1 := { st0 with current_session_vars := r1.2 }
      let res3 : CallbackState × List Effect × Bool :=
        match st1.active_device_key with
        | some ak =>
          let r2 := resolve_command_string ((st1.cmds ak).getD "") st1.current_session_vars
          let st2 := { st1 with current_session_vars := r2.2 }
          if r2.1 ≠ "" then (st2, [Effect.spawnSnapshotSsh r2.1 r1.1], true)
          else (st2, [], false)
        | none => (st1, [Effect.spawnSnapshotLocal r1.1], true)
      let st2 := res3.1
      let spawnEffs := res3.2.1
      let result : Option String := if res3.2.2 then ext.spawnResult else none
      let errState : CallbackState × List Effect :=
        ({ st2 with monitor_states := Function.update st2.monitor_states g (some "OSA_ERROR") },
          spawnEffs ++ [Effect.redrawEff])
      match result with
      | none => errState
      | some rs =>
        match splitFirstMark rs.data with
        | none => errState
        | some pr =>
          if allDigits pr.1 then
            ({ st2 with
                monitor_states := Function.update st2.monitor_states g
                  (some "OSA_MONITORING"),
                monitor_generations := Function.update st2.monitor_generations g
                  (some ext.timeNow) },
              spawnEffs ++ [Effect.startSnapshotMonitor g (digitsVal pr.1), Effect.redrawEff])
          else errState

/-- The `#` long-press numeric-adjust entry branch. -/
def numeric_entry_branch (st : CallbackState) (ext : CallbackExt) (k_idx : Nat)
    (item_data : Item) (fd : FlagDesc) : CallbackState × List Effect :=
  match (findVarMatches item_data.command.data).head? with
  | none => (st, [])
  | some m =>
    let v_n : String := ⟨pyStrip m.2.1⟩
    let d_v : String :=
      match m.2.2 with
      | some d => if d = [] then "0" else ⟨d⟩
      | none => "0"
    match ext.dialogAnswers.headD none with
    | none => (st, [Effect.redrawEff])
    | some s_v_s =>
      if s_v_s = "" ∨ s_v_s = "USER_CANCELLED_PROMPT" ∨ s_v_s = "USER_TIMEOUT_PROMPT" then
        (st, [Effect.redrawEff])
      else
        match (ext.dialogAnswers.tail).headD none with
        | none => (st, [Effect.redrawEff])
        | some stp_s =>
          if stp_s = "" ∨ stp_s = "USER_CANCELLED_PROMPT" ∨
              stp_s = "USER_TIMEOUT_PROMPT" then
            (st, [Effect.redrawEff])
          else if ¬ ext.floatParseOk then (st, [Effect.redrawEff])
          else
            ({ st with
                numeric_step_memory := Function.update st.numeric_step_memory k_idx
                  (some stp_s),
                current_session_vars := setVar st.current_session_vars v_n s_v_s,
                numeric_mode := true,
                long_press_numeric_active := true,
                numeric_var := some
                  ⟨v_n, s_v_s, stp_s, item_data.command, k_idx, fd.force_local,
                    fd.mobile_ssh, fd.background_exec⟩,
                toggle_keys := [k_idx] },
              [Effect.buildPage st.page_index])

/-- The `@` device toggle branch (short press). -/
def device_branch (st : CallbackState) (ext : CallbackExt) (k_idx : Nat)
    (item_data : Item) (fd : FlagDesc) : CallbackState × List Effect :=
  let force := k_idx ∈ st.at_devices_to_reinit_cmd
  let st0 :=
    if force then
      { st with at_devices_to_reinit_cmd := st.at_devices_to_reinit_cmd.filter (· ≠ k_idx) }
    else st
  if st0.active_device_key = some k_idx ∧ ¬ force then
    ({ st0 with
        active_device_key := none,
        toggle_keys := toggleDiscard st0.toggle_keys k_idx },
      [Effect.buildPage st0.page_index])
  else
    let st1 :=
      match st0.active_device_key with
      | some prev => { st0 with toggle_keys := toggleDiscard st0.toggle_keys prev }
      | none => st0
    let st2 := { st1 with
      active_device_key := some k_idx,
      toggle_keys := toggleAdd st1.toggle_keys k_idx }
    let r := resolve_command_string item_data.command st2.current_session_vars
    let st3 := { st2 with current_session_vars := r.2 }
    let cmd_r :=
      if fd.mobile_ssh ∧ startsSsh r.1 ∧ ¬ fd.force_local then ext.mobileTransform r.1
      else r.1
    (st3, [Effect.runAtActivation cmd_r (item_data.flags.data.contains 'N') force fd.force_local,
      Effect.buildPage st3.page_index])

/-- The `V` long-press variable-edit branch. -/
def v_edit_branch (st : CallbackState) (ext : CallbackExt) (k_idx : Nat)
    (item_data : Item) (fd : FlagDesc) : CallbackState × List Effect :=
  let v_f := findVarMatches item_data.command.data
  if v_f = [] then (st, [])
  else
    let fold := vEditFold ext.dialogAnswers st.current_session_vars false
      (v_f.map (fun m => (m.2.1, m.2.2)))
    let st1 := { st with current_session_vars := fold.1 }
    let chg := fold.2.2
    if fd.is_device then
      let st2 := { st1 with at_devices_to_reinit_cmd :=
        if k_idx ∈ st1.at_devices_to_reinit_cmd then st1.at_devices_to_reinit_cmd
        else st1.at_devices_to_reinit_cmd ++ [k_idx] }
      if st2.active_device_key = some k_idx ∧ chg then
        ({ st2 with
            active_device_key := none,
            toggle_keys := toggleDiscard st2.toggle_keys k_idx },
          [Effect.buildPage st2.page_index])
      else (st2, [Effect.buildPage st2.page_index])
    else (st1, [Effect.buildPage st1.page_index])

/-- The `&` background toggle branch. -/
def background_branch (st : CallbackState) (ext : CallbackExt) (g : Nat)
    (res_cmd : String) (fd : FlagDesc) : CallbackState × List Effect :=
  if st.background_running g then
    ({ st with background_running := Function.update st.background_running g false },
      [Effect.terminateBackground g, Effect.buildPage st.page_index])
  else
    match st.active_device_key with
    | some ak =>
      if ¬ fd.force_local then
        let r1 := resolve_command_string ((st.cmds ak).getD "") st.current_session_vars
        let st1 := { st with current_session_vars := r1.2 }
        let atFd := parse_flags ((st.flags ak).getD "")
        let atCmd := if atFd.mobile_ssh then ext.mobileTransform r1.1 else r1.1
        match sshBaseMatch atCmd.data with
        | some base =>
          let escaped := replaceAll ['"'] ['\\', '"'] res_cmd.data
          let final : String := ⟨base ++ (' ' :: '"' :: escaped ++ ['"'])⟩
          ({ st1 with background_running := Function.update st1.background_running g true },
            [Effect.popenBackground final, Effect.buildPage st1.page_index])
        | none => (st1, [])
      else
        ({ st with background_running := Function.update st.background_running g true },
          [Effect.popenBackground res_cmd, Effect.buildPage st.page_index])
    | none =>
      ({ st with background_running := Function.update st.background_running g true },
        [Effect.popenBackground res_cmd, Effect.buildPage st.page_index])

/-- The key-release half of `callback`. -/
def callback_release (cfg : LayoutCfg) (st : CallbackState) (ext : CallbackExt)
    (k_idx : Nat) : CallbackState × List Effect :=
  let lp := ext.lp
  let g_idx_cb := st.key_to_global_item_idx_map k_idx
  let item_data : Item :=
    match g_idx_cb with
    | some g => if h : g < st.items.length then st.items.get ⟨g, h⟩ else itemDefault
    | none => itemDefault
  -- Numeric mode intercepts all key presses until it is deactivated.
  -- (The source indexes numeric_var directly; it is always set when the
  -- two mode flags are, so the isSome guard matches its behavior.)
  match st.numeric_mode && st.long_press_numeric_active, st.numeric_var with
  | true, some nv =>
    if k_idx = nv.key then
      ({ st with
          numeric_mode := false, numeric_var := none,
          long_press_numeric_active := false, toggle_keys := [] },
        [Effect.buildPage st.page_index])
    else if k_idx = cfg.up_key_idx ∨ k_idx = cfg.down_key_idx then
      let vars1 := setVar st.current_session_vars nv.name ext.floatAdjustStr
      let r := resolve_command_string nv.cmd_template vars1
      let st1 := { st with current_session_vars := r.2 }
      if nv.is_background then
        (st1, [Effect.popenBackground r.1, Effect.buildPage st.page_index])
      else
        (st1, [Effect.runInTerminal r.1 (st.active_device_key.bind st.labels)
            nv.force_local,
          Effect.buildPage st.page_index])
    else
      -- Any other key press also deactivates numeric mode — and returns,
      -- so the key's own action is not dispatched.
      ({ st with
          numeric_mode := false, numeric_var := none,
          long_press_numeric_active := false, toggle_keys := [] },
        [Effect.buildPage st.page_index])
  | _, _ =>
    match g_idx_cb with
    | none =>
      -- Fixed buttons (no g_idx) have simple, direct actions
      if k_idx = cfg.down_key_idx ∧ lp then (st, [Effect.openWebUI])
      else if k_idx = cfg.load_key_idx ∧ ¬ lp then (st, [Effect.loadData])
      else
        let s1 : CallbackState × List Effect :=
          if k_idx = cfg.up_key_idx ∧ ¬ lp then
            ({ st with page_index := st.page_index - 1 },
              [Effect.buildPage (st.page_index - 1)])
          else (st, [])
        if k_idx = cfg.down_key_idx ∧ ¬ lp then
          ({ s1.1 with page_index := s1.1.page_index + 1 },
            s1.2 ++ [Effect.buildPage (s1.1.page_index + 1)])
        else s1
    | some g =>
      let fd := parse_flags item_data.flags
      let r0 := resolve_command_string item_data.command st.current_session_vars
      let res_cmd := r0.1
      let stv := { st with current_session_vars := r0.2 }
      if fd.confirm ∧ ¬ ext.confirmAnswer then (stv, [])
      else if fd.background_exec then background_branch stv ext g res_cmd fd
      else if fd.record then record_branch stv ext g item_data
      else if fd.osa_monitor ∧ ¬ lp then osa_branch stv ext g item_data
      else if item_data.flags.data.contains '#' then
        if lp then numeric_entry_branch stv ext k_idx item_data fd
        else
          (stv, [Effect.runInTerminal res_cmd (stv.active_device_key.bind stv.labels)
              fd.force_local,
            Effect.redrawEff])
      else if fd.is_device ∧ ¬ lp then device_branch stv ext k_idx item_data fd
      else if (pyUpper item_data.flags.data).contains 'V' ∧ lp then
        v_edit_branch stv ext k_idx item_data fd
      else if ¬ (fd.is_device ∨ fd.record ∨ fd.osa_monitor ∨
          item_data.flags.data.contains '#') then
        (stv, [Effect.runInTerminal res_cmd (stv.active_device_key.bind stv.labels)
            fd.force_local,
          Effect.redrawEff])
      else (stv, [Effect.redrawEff])

/-- Concrete state for the numeric-adjust claims: numeric-adjust owned by
key 3, a plain button (`echo hi`) on key 4. -/
def numericActiveState : CallbackState :=
  { page_index := 0, numeric_mode := true, long_press_numeric_active := true,
    numeric_var := some ⟨"X", "2", "1", "echo {{X}}", 3, false, false, false⟩,
    active_device_key := none, toggle_keys := [3],
    current_session_vars := [("X", "2")],
    record_toggle_states := fun _ => none,
    at_devices_to_reinit_cmd := [], background_running := fun _ => false,
    monitor_states := fun _ => none, monitor_generations := fun _ => none,
    monitor_threads_has := fun _ => false, numeric_step_memory := fun _ => none,
    items := [⟨1, "B", "echo hi", "", ""⟩],
    labels := fun k => if k = 4 then some "B" else none,
    cmds := fun k => if k = 4 then some "echo hi" else none,
    flags := fun _ => none,
    key_to_global_item_idx_map := fun k => if k = 4 then some 0 else none }

def plainExt : CallbackExt :=
  { lp := false, confirmAnswer := true, terminalOutput := none, dialogAnswers := [],
    floatAdjustStr := "3.0", floatParseOk := true, spawnResult := none, timeNow := 5,
    mobileTransform := id }

/-- C7 counterexample: with numeric-adjust active on key 3, releasing the
plain button on key 4 exits numeric mode but emits only the layout
rebuild — its `echo hi` command is *not* dispatched (it is silently
swallowed), whereas the same release with numeric mode inactive
dispatches it. -/
theorem numeric_other_key_swallowed_counterexample :
    (callback_release ⟨15, 0, 5, 10⟩ numericActiveState plainExt 4).2 =
      [Effect.buildPage 0] ∧
    (callback_release ⟨15, 0, 5, 10⟩ numericActiveState plainExt 4).1.numeric_mode =
      false ∧
    (callback_release ⟨15, 0, 5, 10⟩
        { numericActiveState with
          numeric_mode := false, long_press_numeric_active := false,
          numeric_var := none }
        plainExt 4).2 =
      [Effect.runInTerminal "echo hi" none false, Effect.redrawEff] := by
  refine ⟨rfl, rfl, rfl⟩

/-- C7 (amended): while numeric-adjust is active, releasing any key other
than the owning key and the up/down keys deactivates numeric mode
(clearing the toggle highlight) and returns immediately with only a
layout rebuild — the pressed key's own action is swallowed, not
dispatched. -/
theorem numeric_other_key_exits_and_swallows (cfg : LayoutCfg) (st : CallbackState)
    (ext : CallbackExt) (k : Nat) (nv : NumericVar)
    (h1 : st.numeric_mode = true) (h2 : st.long_press_numeric_active = true)
    (h3 : st.numeric_var = some nv) (h4 : k ≠ nv.key)
    (h5 : k ≠ cfg.up_key_idx) (h6 : k ≠ cfg.down_key_idx) :
    callback_release cfg st ext k =
      ({ st with
          numeric_mode := false, numeric_var := none,
          long_press_numeric_active := false, toggle_keys := [] },
        [Effect.buildPage st.page_index]) := by
  unfold callback_release
  rw [h1, h2, h3]
  simp only [Bool.and_self]
  rw [if_neg h4, if_neg (not_or.mpr ⟨h5, h6⟩)]

/-- Witness for the amended C7 theorem at the concrete state. -/
theorem numeric_other_key_exits_and_swallows_witness :
    (numericActiveState.numeric_mode = true ∧
      numericActiveState.long_press_numeric_active = true ∧
      numericActiveState.numeric_var =
        some ⟨"X", "2", "1", "echo {{X}}", 3, false, false, false⟩ ∧
      (4 : Nat) ≠ 3 ∧ (4 : Nat) ≠ (⟨15, 0, 5, 10⟩ : LayoutCfg).up_key_idx ∧
      (4 : Nat) ≠ (⟨15, 0, 5, 10⟩ : LayoutCfg).down_key_idx) ∧
    callback_release ⟨15, 0, 5, 10⟩ numericActiveState plainExt 4 =
      ({ numericActiveState with
          numeric_mode := false, numeric_var := none,
          long_press_numeric_active := false, toggle_keys := [] },
        [Effect.buildPage numericActiveState.page_index]) :=
  ⟨⟨rfl, rfl, rfl, by decide, by decide, by decide⟩,
    numeric_other_key_exits_and_swallows ⟨15, 0, 5, 10⟩ numericActiveState plainExt 4
      ⟨"X", "2", "1", "echo {{X}}", 3, false, false, false⟩ rfl rfl rfl
      (by decide) (by decide) (by decide)⟩

/-! ### Record stop (C4) -/

theorem lookup_append_single (vs : Vars) (n d a : String) (h : n ≠ a) :
    (vs ++ [(n, d)]).lookup a = vs.lookup a := by
  induction vs with
  | nil =>
    simp only [List.nil_append, List.lookup]
    rw [show (a == n) = false from beq_eq_false_iff_ne.mpr (fun hh => h hh.symm)]
  | cons kv t ih =>
    rw [List.cons_append]
    simp only [List.lookup]
    cases a == kv.1
    · exact ih
    · rfl

theorem lookup_map_overwrite (vs : Vars) (n v : String)
    (h : (vs.lookup n).isSome) :
    (vs.map (fun nv => if nv.1 = n then (n, v) else nv)).lookup n = some v := by
  induction vs with
  | nil => simp [List.lookup] at h
  | cons kv t ih =>
    rw [List.map_cons]
    by_cases hk : kv.1 = n
    · rw [if_pos hk]
      simp [List.lookup]
    · rw [if_neg hk]
      have hb : (n == kv.1) = false := beq_eq_false_iff_ne.mpr (fun hh => hk hh.symm)
      simp only [List.lookup, hb] at h
      simp only [List.lookup, hb]
      exact ih h

theorem lookup_append_self_of_none (vs : Vars) (n v : String)
    (h : vs.lookup n = none) : (vs ++ [(n, v)]).lookup n = some v := by
  induction vs with
  | nil => simp [List.lookup]
  | cons kv t ih =>
    simp only [List.lookup] at h
    cases hb : n == kv.1
    · rw [hb] at h
      rw [List.cons_append]
      simp only [List.lookup, hb]
      exact ih h
    · rw [hb] at h
      exact absurd h (by simp)

theorem setVar_lookup_self (vs : Vars) (n v : String) :
    (setVar vs n v).lookup n = some v := by
  unfold setVar
  split
  · exact lookup_map_overwrite vs n v (by assumption)
  · exact lookup_append_self_of_none vs n v
      (Option.not_isSome_iff_eq_none.mp (by assumption))

theorem finalPass_fold_take
    (l : List (List Char × List Char × Option (List Char)))
    (acc : List Char × Vars) :
    ((l.foldl (fun st m =>
      let varName : String := ⟨pyStrip m.2.1⟩
      let dflt : String := ⟨(m.2.2).getD []⟩
      if pyUpper varName.data ≠ "TAKE".data ∧ st.2.lookup varName = none then
        (replaceAll m.1 dflt.data st.1, st.2 ++ [(varName, dflt)])
      else st) acc).2).lookup "TAKE" = acc.2.lookup "TAKE" := by
  induction l generalizing acc with
  | nil => rfl
  | cons m rest ih =>
    rw [List.foldl_cons, ih]
    dsimp only
    split
    · next hcond =>
        apply lookup_append_single
        intro hEq
        apply hcond.1
        have hd : pyStrip m.2.1 = "TAKE".data := congrArg String.data hEq
        show pyUpper (pyStrip m.2.1) = "TAKE".data
        rw [hd]
        decide
    · rfl

/-- `resolve_command_string` never changes the `TAKE` entry of the
session map: passes 1–2 read it, and the seeding pass skips any
placeholder whose uppercased name is `TAKE`. -/
theorem resolve_preserves_take (t : String) (vs : Vars) :
    (resolve_command_string t vs).2.lookup "TAKE" = vs.lookup "TAKE" := by
  unfold resolve_command_string resolveFinalPass
  dsimp only
  exact finalPass_fold_take _ _

theorem record_branch_recording (st : CallbackState) (ext : CallbackExt) (g : Nat)
    (it : Item) (w : String)
    (hlp : ext.lp = false)
    (hrec : st.record_toggle_states g = some ⟨"RECORDING", some w⟩) :
    (∀ line, firstErrorLine ext.terminalOutput = some line →
      (record_branch st ext g it).1.record_toggle_states g = some ⟨"ERROR", none⟩ ∧
      (record_branch st ext g it).1.current_session_vars =
        (resolve_command_string "{{RECPATH}}" st.current_session_vars).2 ∧
      (record_branch st ext g it).2.head? = some (Effect.sendKeystroke w "\\r")) ∧
    (firstErrorLine ext.terminalOutput = none →
      (record_branch st ext g it).1.record_toggle_states g = none ∧
      (record_branch st ext g it).1.current_session_vars =
        setVar (resolve_command_string "{{RECPATH}}" st.current_session_vars).2
          "TAKE"
          (takeIncrement
            (((resolve_command_string "{{RECPATH}}"
                st.current_session_vars).2.lookup "TAKE").getD "1")) ∧
      (record_branch st ext g it).2 =
        [Effect.sendKeystroke w "\\r", Effect.buildPage st.page_index]) := by
  unfold record_branch
  simp only []
  rw [hrec, hlp]
  dsimp only [Option.getD]
  rw [if_neg (by decide : ¬ (false = true))]
  rw [if_neg (by decide : ("RECORDING" : String) ≠ "ERROR")]
  rw [if_neg (by decide : ("RECORDING" : String) ≠ "OFF")]
  rw [if_pos rfl]
  constructor
  · intro line hline
    rw [hline]
    dsimp only
    refine ⟨by simp [Function.update_same], rfl, rfl⟩
  · intro hnone
    rw [hnone]
    dsimp only
    refine ⟨by simp [Function.update_same], rfl, rfl⟩

theorem callback_release_to_record (cfg : LayoutCfg) (st : CallbackState)
    (ext : CallbackExt) (k g : Nat) (it : Item)
    (hmode : (st.numeric_mode && st.long_press_numeric_active) = false)
    (hmap : st.key_to_global_item_idx_map k = some g)
    (hlen : g < st.items.length)
    (hitem : st.items.get ⟨g, hlen⟩ = it)
    (hconfirm : (parse_flags it.flags).confirm = false)
    (hbg : (parse_flags it.flags).background_exec = false)
    (hrecflag : (parse_flags it.flags).record = true) :
    callback_release cfg st ext k =
      record_branch
        { st with current_session_vars :=
            (resolve_command_string it.command st.current_session_vars).2 }
        ext g it := by
  unfold callback_release
  simp only []
  rw [hmode, hmap]
  dsimp only
  rw [dif_pos hlen, hitem]
  rw [if_neg (by simp [hconfirm])]
  rw [hbg]
  rw [if_neg (by decide : ¬ (false = true))]
  rw [hrecflag, if_pos rfl]

/-- C4: for a record-flagged button whose record state is RECORDING (with
a captured window title), a short press always sends the stop keystroke
to that window; if the recent terminal output (last 15 lines) contains
the known error substring "bad output" the record state becomes ERROR
and the session TAKE value is unchanged, and if no error keyword occurs
in the recent output the record state entry is cleared (OFF) and a
numeric TAKE value n is replaced by n + 1. -/
theorem record_stop_take_semantics (cfg : LayoutCfg) (st : CallbackState)
    (ext : CallbackExt) (k g : Nat) (it : Item) (w : String)
    (hmode : (st.numeric_mode && st.long_press_numeric_active) = false)
    (hmap : st.key_to_global_item_idx_map k = some g)
    (hlen : g < st.items.length)
    (hitem : st.items.get ⟨g, hlen⟩ = it)
    (hconfirm : (parse_flags it.flags).confirm = false)
    (hbg : (parse_flags it.flags).background_exec = false)
    (hrecflag : (parse_flags it.flags).record = true)
    (hlp : ext.lp = false)
    (hrec : st.record_toggle_states g = some ⟨"RECORDING", some w⟩) :
    Effect.sendKeystroke w "\\r" ∈ (callback_release cfg st ext k).2 ∧
    (∀ o, ext.terminalOutput = some o →
      (∃ line ∈ last15Lines o.data, lineHasKeyword "bad output" line = true) →
      (callback_release cfg st ext k).1.record_toggle_states g =
        some ⟨"ERROR", none⟩ ∧
      (callback_release cfg st ext k).1.current_session_vars.lookup "TAKE" =
        st.current_session_vars.lookup "TAKE") ∧
    (firstErrorLine ext.terminalOutput = none →
      (callback_release cfg st ext k).1.record_toggle_states g = none ∧
      ∀ tv n, st.current_session_vars.lookup "TAKE" = some tv →
        pyInt tv.data = some n →
        (callback_release cfg st ext k).1.current_session_vars.lookup "TAKE" =
          some (toString (n + 1))) := by
  have hroute := callback_release_to_record cfg st ext k g it hmode hmap hlen
    hitem hconfirm hbg hrecflag
  have hrec' :
      ({ st with current_session_vars :=
          (resolve_command_string it.command st.current_session_vars).2
        } : CallbackState).record_toggle_states g =
        some ⟨"RECORDING", some w⟩ := hrec
  obtain ⟨herrCase, hokCase⟩ :=
    record_branch_recording
      { st with current_session_vars :=
          (resolve_command_string it.command st.current_session_vars).2 }
      ext g it w hlp hrec'
  rw [hroute]
  refine ⟨?_, ?_, ?_⟩
  · cases herr : firstErrorLine ext.terminalOutput with
    | some line =>
      exact List.mem_of_mem_head?
        (by rw [(herrCase line herr).2.2]; rfl)
    | none =>
      rw [(hokCase herr).2.2]
      simp
  · rintro o ho ⟨line, hmem, hkw⟩
    have hsome : (firstErrorLine ext.terminalOutput).isSome := by
      rw [ho]
      unfold firstErrorLine
      rw [List.find?_isSome]
      refine ⟨line, hmem, ?_⟩
      exact List.any_eq_true.mpr ⟨"bad output", by decide, hkw⟩
    obtain ⟨line', hline'⟩ := Option.isSome_iff_exists.mp hsome
    have h := herrCase line' hline'
    refine ⟨h.1, ?_⟩
    rw [h.2.1, resolve_preserves_take]
    show (resolve_command_string it.command st.current_session_vars).2.lookup
      "TAKE" = _
    rw [resolve_preserves_take]
  · intro hnone
    have h := hokCase hnone
    refine ⟨h.1, ?_⟩
    intro tv n htv hn
    have hV : (resolve_command_string "{{RECPATH}}"
        (resolve_command_string it.command st.current_session_vars).2).2.lookup
          "TAKE" = some tv := by
      rw [resolve_preserves_take, resolve_preserves_take]
      exact htv
    rw [h.2.1]
    show (setVar (resolve_command_string "{{RECPATH}}"
        (resolve_command_string it.command st.current_session_vars).2).2
        "TAKE"
        (takeIncrement (((resolve_command_string "{{RECPATH}}"
          (resolve_command_string it.command st.current_session_vars).2).2.lookup
            "TAKE").getD "1"))).lookup "TAKE" = _
    rw [setVar_lookup_self, hV]
    dsimp only [Option.getD]
    unfold takeIncrement
    rw [hn]

/-- Concrete record-stop scenario: record-flagged button on key 4 in
state RECORDING with window title "Win" and TAKE = "7". -/
def recordingState : CallbackState :=
  { page_index := 0, numeric_mode := false, long_press_numeric_active := false,
    numeric_var := none, active_device_key := none, toggle_keys := [],
    current_session_vars := [("TAKE", "7")],
    record_toggle_states := fun g =>
      if g = 0 then some ⟨"RECORDING", some "Win"⟩ else none,
    at_devices_to_reinit_cmd := [], background_running := fun _ => false,
    monitor_states := fun _ => none, monitor_generations := fun _ => none,
    monitor_threads_has := fun _ => false, numeric_step_memory := fun _ => none,
    items := [⟨1, "R", "echo rec", "*", ""⟩],
    labels := fun k => if k = 4 then some "R" else none,
    cmds := fun k => if k = 4 then some "echo rec" else none,
    flags := fun k => if k = 4 then some "*" else none,
    key_to_global_item_idx_map := fun k => if k = 4 then some 0 else none }

/-- Witness for the C4 theorem at the concrete recording state. -/
theorem record_stop_take_semantics_witness :
    ((recordingState.numeric_mode &&
        recordingState.long_press_numeric_active) = false ∧
      recordingState.key_to_global_item_idx_map 4 = some 0 ∧
      0 < recordingState.items.length ∧
      (parse_flags (⟨1, "R", "echo rec", "*", ""⟩ : Item).flags).confirm = false ∧
      (parse_flags
        (⟨1, "R", "echo rec", "*", ""⟩ : Item).flags).background_exec = false ∧
      (parse_flags (⟨1, "R", "echo rec", "*", ""⟩ : Item).flags).record = true ∧
      plainExt.lp = false ∧
      recordingState.record_toggle_states 0 = some ⟨"RECORDING", some "Win"⟩) ∧
    (Effect.sendKeystroke "Win" "\\r" ∈
      (callback_release ⟨15, 0, 5, 10⟩ recordingState plainExt 4).2 ∧
    (∀ o, plainExt.terminalOutput = some o →
      (∃ line ∈ last15Lines o.data, lineHasKeyword "bad output" line = true) →
      (callback_release ⟨15, 0, 5, 10⟩ recordingState
        plainExt 4).1.record_toggle_states 0 = some ⟨"ERROR", none⟩ ∧
      (callback_release ⟨15, 0, 5, 10⟩ recordingState
        plainExt 4).1.current_session_vars.lookup "TAKE" =
        recordingState.current_session_vars.lookup "TAKE") ∧
    (firstErrorLine plainExt.terminalOutput = none →
      (callback_release ⟨15, 0, 5, 10⟩ recordingState
        plainExt 4).1.record_toggle_states 0 = none ∧
      ∀ tv n, recordingState.current_session_vars.lookup "TAKE" = some tv →
        pyInt tv.data = some n →
        (callback_release ⟨15, 0, 5, 10⟩ recordingState
          plainExt 4).1.current_session_vars.lookup "TAKE" =
          some (toString (n + 1)))) :=
  ⟨⟨rfl, rfl, by decide, rfl, rfl, rfl, rfl, rfl⟩,
    record_stop_take_semantics ⟨15, 0, 5, 10⟩ recordingState plainExt 4 0
      ⟨1, "R", "echo rec", "*", ""⟩ "Win" rfl rfl (by decide) rfl rfl rfl rfl
      rfl rfl⟩

/-! ## HTTP API handlers (C9) -/

/-- `initialize_session_vars_from_items`: clears the session map and
re-seeds it from the `{{VAR:default}}` placeholders of every button
command, with the TAKE special cases (`default or "1"`, and a final
`"TAKE" -> "1"` when a record button exists but no command defined
TAKE). -/
def initialize_session_vars_from_items (items_list : List Item) : Vars :=
  let step := items_list.foldl
    (fun (acc : Vars × Bool) it =>
      let hasRec := acc.2 || it.flags.data.contains '*'
      if it.command = "" then (acc.1, hasRec)
      else
        ((findVarMatches it.command.data).foldl
          (fun vs m =>
            let var_name : String := ⟨pyStrip m.2.1⟩
            let default_value : String := ⟨(m.2.2).getD []⟩
            if vs.lookup var_name = none then
              if pyUpper var_name.data = "TAKE".data then
                setVar vs "TAKE"
                  (if default_value = "" then "1" else default_value)
              else setVar vs var_name default_value
            else vs)
          acc.1, hasRec))
    ([], false)
  if step.2 ∧ step.1.lookup "TAKE" = none then step.1 ++ [("TAKE", "1")]
  else step.1

/-- In-memory driver state touched by the mutating API handlers. -/
structure ApiState where
  items : List Item
  current_session_vars : Vars
  page_index : Int
deriving Repr, DecidableEq

/-- Flask responses of the button API. -/
inductive ApiResp where
  | ok (msg : String)
  | okCreated (msg : String)
  | err (msg : String) (code : Nat)
deriving Repr, DecidableEq

/-- Layout-rebuild side effect of a successful mutation. -/
inductive ApiEffect where
  | buildPage (idx : Int)
deriving Repr, DecidableEq

/-- Request body of PUT/POST (the JSON fields used by the handlers). -/
structure ButtonData where
  label : String
  command : String
  flags : String
  monitor_keyword : String
deriving Repr, DecidableEq

/-- `update_button_config_api` (PUT): the DB write result is the
`db_update_button` return value. -/
def update_button_config_api (st : ApiState) (button_id : Int)
    (data : ButtonData) (db_ok : Bool) : ApiState × ApiResp × List ApiEffect :=
  if ¬ db_ok then (st, ApiResp.err "DB update failed" 500, [])
  else
    let updated : Item :=
      ⟨button_id, data.label, data.command, data.flags, data.monitor_keyword⟩
    match st.items.findIdx? (fun it => it.id == button_id) with
    | some i =>
      let items' := st.items.set i updated
      ({ items := items',
         current_session_vars := initialize_session_vars_from_items items',
         page_index := st.page_index },
        ApiResp.ok "Button updated", [ApiEffect.buildPage st.page_index])
    | none => (st, ApiResp.ok "Button updated", [])

/-- `add_new_button_api` (POST): the DB write result is the
`db_add_button` return value (`None` on `sqlite3.Error`). -/
def add_new_button_api (st : ApiState) (data : ButtonData)
    (db_new_id : Option Int) : ApiState × ApiResp × List ApiEffect :=
  match db_new_id with
  | none => (st, ApiResp.err "DB add failed" 500, [])
  | some nid =>
    let nb : Item :=
      ⟨nid, data.label, data.command, data.flags, data.monitor_keyword⟩
    let items' := st.items ++ [nb]
    ({ items := items',
       current_session_vars := initialize_session_vars_from_items items',
       page_index := st.page_index },
      ApiResp.okCreated "Button added", [ApiEffect.buildPage st.page_index])

/-- `delete_button_config_api` (DELETE): the DB write result is the
`db_delete_button` return value. -/
def delete_button_config_api (st : ApiState) (button_id : Int)
    (db_ok : Bool) : ApiState × ApiResp × List ApiEffect :=
  if ¬ db_ok then (st, ApiResp.err "DB delete failed" 500, [])
  else
    let items' := st.items.filter (fun it => it.id != button_id)
    ({ items := items',
       current_session_vars := initialize_session_vars_from_items items',
       page_index := st.page_index },
      ApiResp.ok "Button deleted", [ApiEffect.buildPage st.page_index])

/-- C9: when the database write fails, each mutating API handler returns
the 500 error response and leaves the in-memory state exactly unchanged,
performing no layout rebuild — no partial application. -/
theorem api_no_partial_application_on_db_failure (st : ApiState)
    (button_id : Int) (data : ButtonData) :
    update_button_config_api st button_id data false =
      (st, ApiResp.err "DB update failed" 500, []) ∧
    add_new_button_api st data none =
      (st, ApiResp.err "DB add failed" 500, []) ∧
    delete_button_config_api st button_id false =
      (st, ApiResp.err "DB delete failed" 500, []) :=
  ⟨rfl, rfl, rfl⟩
